import Mathlib

/-!
Verification of the PyLink S2S protocol bridge (P10 / TS6 dialect modules,
relay plugin) against its natural-language specification.

The Python sources under `protocols/p10.py`, `protocols/ts6_common.py` and
`plugins/relay.py` are shallowly embedded below: pure helpers become Lean
functions, stateful protocol operations become explicit state-passing
functions over a `NetState` record, and code that can raise becomes
`Except PyErr`.  Helper functions of the PyLink tree that are not part of
the analysed modules (`utils`, `structures`, `ircs2s_common`, the full
`classes` module) are modelled from the specification and marked as such
in their doc comments.
-/

namespace PyLink

/-! ## Python-level error taxonomy

Exceptions raised by the embedded code.  `lookupError` / `valueError` are
the typed precondition failures, `protocolError` is PyLink's fatal
protocol error, `attributeError` models Python's AttributeError for an
access to an attribute an object does not have, `binasciiError` and
`osError` are the parse failures of `base64.b64decode` resp.
`socket.inet_ntoa`. -/

inductive PyErr where
  | lookupError (msg : String)
  | valueError (msg : String)
  | protocolError (msg : String)
  | notImplementedError (msg : String)
  | attributeError (msg : String)
  | assertionError (msg : String)
  | runtimeError (msg : String)
  | binasciiError (msg : String)
  | osError (msg : String)
  | keyError (msg : String)
  | structError (msg : String)
  deriving BEq, DecidableEq, Repr

/-! ## Small utilities shared by the embeddings -/

/-- Association-list lookup (Python dict read). -/
def alget {α : Type} : List (String × α) → String → Option α
  | [], _ => none
  | p :: rest, k => if p.1 = k then some p.2 else alget rest k

/-- Association-list write (Python dict assignment). -/
def alset {α : Type} : List (String × α) → String → α → List (String × α)
  | [], k, v => [(k, v)]
  | p :: rest, k, v => if p.1 = k then (k, v) :: rest else p :: alset rest k v

/-- Association-list delete (Python `del d[k]`). -/
def aldel {α : Type} : List (String × α) → String → List (String × α)
  | [], _ => []
  | p :: rest, k => if p.1 = k then aldel rest k else p :: aldel rest k

/-- Character-level split, with Python `str.split(sep)` semantics
(an empty string yields one empty piece). -/
def listSplit : Char → List Char → List Char → List (List Char)
  | _, [], acc => [acc.reverse]
  | c, x :: xs, acc =>
      if x = c then acc.reverse :: listSplit c xs [] else listSplit c xs (x :: acc)

def pySplit (s : String) (c : Char) : List String :=
  (listSplit c s.toList []).map String.mk

/-- Python one-character `str.replace`. -/
def pyReplace (s : String) (a b : Char) : String :=
  String.mk (s.toList.map (fun ch => if ch = a then b else ch))

/-- Python `s[:k]` for a possibly negative bound. -/
def pySliceTo (s : String) (k : Int) : String :=
  if k ≥ 0 then String.mk (s.toList.take k.toNat)
  else String.mk (s.toList.take (s.toList.length - (-k).toNat))

/-- Python str.startswith, as a character-list prefix test. -/
def pyStartsWith (s pre : String) : Bool := pre.toList.isPrefixOf s.toList

/-- Python `x or d` for an optional string argument: both `None` and the
empty string are falsy and select the default. -/
def orDefaultStr (x : Option String) (d : String) : String :=
  match x with
  | none => d
  | some s => if s = "" then d else s

/-- Python `x or d` for an optional integer argument: both `None` and `0`
are falsy and select the default. -/
def orDefaultNat (x : Option Nat) (d : Nat) : Nat :=
  match x with
  | none => d
  | some n => if n = 0 then d else n

def startsWithDigit (s : String) : Bool :=
  match s.toList with
  | [] => false
  | c :: _ => c.isDigit

/-- Decimal value of a digit string. -/
def digitsVal (p : List Char) : Nat := p.foldl (fun a c => a * 10 + (c.toNat - 48)) 0

def parseNatStr (s : String) : Option Nat :=
  if s ≠ "" && s.toList.all Char.isDigit then some (digitsVal s.toList) else none

/-! ## Base64 with the P10 altchars

`base64.b64encode(data, b'[]')` / `base64.b64decode(data, altchars='[]')`:
standard base64 alphabet with `+/` replaced by `[]`.  Python's `b64decode`
(without `validate=True`) silently discards characters outside the
alphabet and then requires the remaining length to be a multiple of four.
Bytes are `Nat`s below 256, sextet indices are `Nat`s below 64. -/

def b64alphabet : List Char :=
  "ABCDEFGHIJKLMNOPQRSTUVWXYZabcdefghijklmnopqrstuvwxyz0123456789[]".toList

def b64char (n : Nat) : Char := b64alphabet.getD n 'A'

def b64index (c : Char) : Nat := b64alphabet.indexOf c

def b64isAlpha (c : Char) : Bool := b64alphabet.contains c

/-- Encode a byte list (big-endian groups of three bytes into four sextet
characters, `=`-padding for a trailing group of one or two bytes, exactly
as `base64.b64encode`). -/
def b64encodeBytes : List Nat → List Char
  | [] => []
  | [x] => [b64char (x / 4), b64char (x % 4 * 16), '=', '=']
  | [x, y] => [b64char (x / 4), b64char (x % 4 * 16 + y / 16), b64char (y % 16 * 4), '=']
  | x :: y :: z :: rest =>
      b64char (x / 4) :: b64char (x % 4 * 16 + y / 16) ::
      b64char (y % 16 * 4 + z / 64) :: b64char (z % 64) :: b64encodeBytes rest

/-- Decode a list of sextet indices (groups of four) into bytes. -/
def b64decodeGroups : List Nat → List Nat
  | i :: j :: k :: l :: rest =>
      (i * 4 + j / 16) :: (j % 16 * 16 + k / 4) :: (k % 4 * 64 + l) :: b64decodeGroups rest
  | _ => []

/-- Decode as `base64.b64decode(s, altchars='[]')` does: discard characters
outside the alphabet, fail with `binascii.Error` unless the remaining
length is a multiple of four (our inputs carry no `=` padding), then
decode each group of four sextets into three bytes. -/
def b64decodeStr (s : String) : Except PyErr (List Nat) :=
  let kept := s.toList.filter b64isAlpha
  if kept.length % 4 == 0 then
    .ok (b64decodeGroups (kept.map b64index))
  else
    .error (.binasciiError "Invalid base64-encoded string")

/-! ## IP rendering (socket.inet_ntoa / inet_ntop) -/

/-- Render four bytes as a dotted-quad IPv4 string, as
`socket.inet_ntoa` does; any other byte-count raises `OSError`. -/
def inet_ntoa (bs : List Nat) : Except PyErr String :=
  match bs with
  | [a, b, c, d] =>
      .ok (toString a ++ "." ++ toString b ++ "." ++ toString c ++ "." ++ toString d)
  | _ => .error (.osError "packed IP wrong length for inet_ntoa")

/-- Lower-case hex rendering of a 16-bit group without leading zeroes. -/
def hexGroup (n : Nat) : String := (Nat.toDigits 16 n).asString

/-- Find the start and length of the longest (leftmost-first) run of
zero groups, for IPv6 `::` compression. -/
def longestZeroRun (gs : List Nat) : Nat × Nat := Id.run do
  let mut best : Nat × Nat := (0, 0)
  let mut cur : Nat × Nat := (0, 0)
  let mut idx := 0
  for g in gs do
    if g == 0 then
      cur := (if cur.2 == 0 then idx else cur.1, cur.2 + 1)
      if cur.2 > best.2 then best := cur
    else
      cur := (0, 0)
    idx := idx + 1
  return best

/-- Render sixteen bytes as an IPv6 string with the longest zero run of
length at least two compressed to `::`, as `socket.inet_ntop` does. -/
def inet_ntop6 (bs : List Nat) : Except PyErr String :=
  if bs.length == 16 then
    let rec toGroups : List Nat → List Nat
      | hi :: lo :: rest => (hi * 256 + lo) :: toGroups rest
      | _ => []
    let gs := toGroups bs
    let (start, len) := longestZeroRun gs
    if len ≥ 2 then
      let head := ((gs.take start).map hexGroup).intersperse ":"
      let tail := ((gs.drop (start + len)).map hexGroup).intersperse ":"
      .ok (String.join head ++ "::" ++ String.join tail)
    else
      .ok (String.join (((gs.map hexGroup)).intersperse ":"))
  else
    .error (.osError "packed IP wrong length for inet_ntop")

/-! ## decode_p10_ip (p10.py lines 186-239) -/

/-- Split a character list into chunks of three, as the
`range(0, len(head), 3)` loops of `decode_p10_ip` do. -/
def chunks3 : List Char → List (List Char)
  | [] => []
  | c :: rest => (c :: rest.take 2) :: chunks3 (rest.drop 2)
termination_by cs => cs.length
decreasing_by simp [List.length_drop]; omega

/-- Decode the B64 sections of a P10 IPv6 head or tail: each chunk gets an
`'A'` prepended, is base64-decoded, and the first decoded byte dropped. -/
def decodeSections (cs : List Char) : Except PyErr (List Nat) :=
  (chunks3 cs).foldlM
    (fun acc chunk => do
      let bs ← b64decodeStr (String.mk ('A' :: chunk))
      pure (acc ++ bs.drop 1)) []

/-- Embedding of `P10Protocol.decode_p10_ip`.  A six-character input is
treated as IPv4 (`'AA'` prepended, base64-decoded, first two bytes
dropped, rendered with `inet_ntoa`); an input of length at most 24 or
containing `'_'` is treated as IPv6 (head and tail around the `'_'`
decoded in 3-character chunks, the zero run length computed as
`16 - len(byteshead) - len(bytestail)`); any other input falls off the
end of the function and returns Python's implicit `None`, modelled as
`.ok none`. -/
def decode_p10_ip (ip : String) : Except PyErr (Option String) :=
  if ip.length == 6 then do
    let bs ← b64decodeStr ("AA" ++ ip)
    let s ← inet_ntoa (bs.drop 2)
    pure (some s)
  else if ip.length ≤ 24 || ip.toList.contains '_' then do
    let (head, tail) ←
      if ip.toList.contains '_' then
        -- head, tail = ip.split('_'): exactly two pieces or a ValueError
        match listSplit '_' ip.toList [] with
        | [h, t] => pure (h, t)
        | _ => Except.error (.valueError "too many values to unpack")
      else pure (ip.toList, ([] : List Char))
    let byteshead ← decodeSections head
    let bytestail ← decodeSections tail
    -- pad = 16 - len(byteshead) - len(bytestail); b'\x00' * pad is empty
    -- for a non-positive pad, which Nat subtraction models exactly
    let pad := 16 - byteshead.length - bytestail.length
    let ipbytes := byteshead ++ List.replicate pad 0 ++ bytestail
    let s ← inet_ntop6 ipbytes
    let s := if pyStartsWith s ":" then "0" ++ s else s
    pure (some s)
  else
    pure none

/-! ## spawnClient's outbound IP encoding (p10.py lines 287-293) -/

/-- Parse a canonical dotted-quad IPv4 literal, as
`ipaddress.ip_address(ip).version == 4` accepts it: four dot-separated
decimal parts, no leading zeroes, each at most 255. -/
def parseIPv4 (s : String) : Option (List Nat) :=
  let parts := listSplit '.' s.toList []
  if parts.length == 4 &&
     parts.all (fun p => !p.isEmpty && p.all Char.isDigit &&
                         (p.length == 1 || p.headD '0' != '0')) &&
     parts.all (fun p => digitsVal p ≤ 255) then
    some (parts.map digitsVal)
  else
    none

/-- The byte-level IPv4 encoding of `spawnClient`:
`base64.b64encode(b'\x00\x00' + socket.inet_aton(ip), b'[]')[2:]`. -/
def encodeIPv4bytes (bs : List Nat) : String :=
  String.mk ((b64encodeBytes ([0, 0] ++ bs)).drop 2)

/-- The `b64ip` value `spawnClient` puts on the wire: the real encoding
for an IPv4 address, and the constant `'AAAAAA'` for everything else
(the source carries a `TODO: propagate IPv6 address` comment). -/
def spawnClient_b64ip (ip : String) : String :=
  match parseIPv4 ip with
  | some bs => encodeIPv4bytes bs
  | none => "AAAAAA"

/-- Canonical dotted-quad rendering of four octets; this is what
`socket.inet_ntoa` gives and equals the original string for every
canonical IPv4 literal. -/
def dottedQuad (a b c d : Nat) : String :=
  toString a ++ "." ++ toString b ++ "." ++ toString c ++ "." ++ toString d

/-! ## p10b64encode and the numeric-range SID generator (p10.py lines 25-63) -/

/-- Embedding of `p10b64encode(num)`: pack `num` as a big-endian unsigned
32-bit integer (`struct.pack` raises for anything out of range), drop the
first byte, base64-encode the remaining three bytes with the `[]`
altchars, and keep the last two characters. -/
def p10b64encode (num : Nat) : Except PyErr String :=
  if num < 2 ^ 32 then
    .ok (String.mk ((b64encodeBytes [num / 2 ^ 16 % 256, num / 2 ^ 8 % 256, num % 256]).drop 2))
  else
    .error (.structError "argument out of range")

/-- State of `P10SIDGenerator`: the configured range and the counter,
which `__init__` starts at `minnum`. -/
structure P10SIDGenerator where
  minnum : Nat
  maxnum : Nat
  currentnum : Nat
  deriving BEq, DecidableEq, Repr

def P10SIDGenerator.init (minnum maxnum : Nat) : P10SIDGenerator :=
  { minnum := minnum, maxnum := maxnum, currentnum := minnum }

/-- Embedding of `P10SIDGenerator.next_sid`. -/
def P10SIDGenerator.next_sid (g : P10SIDGenerator) : Except PyErr (String × P10SIDGenerator) :=
  if g.currentnum > g.maxnum then
    .error (.protocolError "Ran out of valid SIDs! Check your sidrange setting and try again.")
  else do
    let sid ← p10b64encode g.currentnum
    pure (sid, { g with currentnum := g.currentnum + 1 })

/-- Result of the k-th call (0-indexed) to `next_sid` on a generator
state: calls advance the state, and an exception leaves the counter
unchanged so every later call fails identically, which propagating the
error models exactly. -/
def P10SIDGenerator.kthSid (g : P10SIDGenerator) : Nat → Except PyErr String
  | 0 => (g.next_sid).map Prod.fst
  | k + 1 =>
    match g.next_sid with
    | .ok (_, g') => g'.kthSid k
    | .error e => .error e

/-! ## TS6SIDGenerator (ts6_common.py lines 13-86) -/

def sidDigits : List Char := "0123456789".toList

def sidDigitsUpper : List Char := "0123456789ABCDEFGHIJKLMNOPQRSTUVWXYZ".toList

/-- State of `TS6SIDGenerator`: the template, per-position iterator state
(`some i` = a wildcard position whose iterator will next yield character
`i` of its alphabet; `none` = a fixed template character, on which
`next()` raises `TypeError`), per-position alphabets, and the output
characters.  The object stores `self.irc` but — load-bearing for C2 —
no `servers` attribute. -/
structure TS6SIDGenerator where
  query : List Char
  allowedchars : List (Option (List Char))
  iters : List (Option Nat)
  output : List Char
  deriving BEq, DecidableEq, Repr

/-- Embedding of `TS6SIDGenerator.__init__` for a given `sidrange` query:
asserts length 3, at least one `#`, and only digits / uppercase / `#`;
each wildcard position gets digits (position 0) or digits+uppercase,
its output starts at the alphabet's first character and its iterator is
advanced past it. -/
def ts6SidGenInit (query : String) : Except PyErr TS6SIDGenerator :=
  let q := query.toList
  if q.length ≠ 3 then
    .error (.assertionError "Incorrect length for a SID (must be 3)")
  else if ¬ q.contains '#' then
    .error (.assertionError "Must be at least one wildcard in query")
  else if ¬ q.all (fun c => sidDigitsUpper.contains c || c == '#') then
    .error (.assertionError "Invalid character found.")
  else
    .ok { query := q
          allowedchars := q.enum.map (fun p =>
            if p.2 = '#' then some (if p.1 = 0 then sidDigits else sidDigitsUpper) else none)
          iters := q.map (fun c => if c = '#' then some 1 else none)
          output := q.enum.map (fun p =>
            if p.2 = '#' then (if p.1 = 0 then sidDigits else sidDigitsUpper).getD 0 '0' else p.2) }

/-- Embedding of `TS6SIDGenerator.increment(pos)`, with `pos + 1` as the
argument so that Python's `pos < 0` exit is the `0` case.  A fixed
position's "iterator" is a plain string: `next()` on it raises
`TypeError`, caught to mean "carry left".  An exhausted wildcard
iterator raises `StopIteration`: the position is reset to its first
character, a fresh iterator advanced past it, and the carry moves left. -/
def TS6SIDGenerator.incrementAux (g : TS6SIDGenerator) : Nat → Except PyErr TS6SIDGenerator
  | 0 => .error (.runtimeError "No more available SIDs!")
  | pos + 1 =>
    match g.iters.getD pos none, g.allowedchars.getD pos none with
    | none, _ => g.incrementAux pos
    | some _, none => .error (.runtimeError "wildcard position without an alphabet")
    | some i, some allowed =>
      if h : i < allowed.length then
        .ok { g with output := g.output.set pos allowed[i],
                     iters := g.iters.set pos (some (i + 1)) }
      else
        ({ g with output := g.output.set pos (allowed.getD 0 '0'),
                  iters := g.iters.set pos (some 1) }).incrementAux pos

def TS6SIDGenerator.increment (g : TS6SIDGenerator) : Except PyErr TS6SIDGenerator :=
  g.incrementAux 3

/-- Embedding of `TS6SIDGenerator.next_sid` (ts6_common.py lines 78-86).
The source's loop condition is `''.join(self.output) in self.servers`,
but `TS6SIDGenerator.__init__` stores only `self.irc` (plus the query,
iterator and output fields) and the class defines no `servers`
attribute, so the very first evaluation of the condition raises
`AttributeError` — before any increment happens and before any SID can
be returned. -/
def TS6SIDGenerator.next_sid (_g : TS6SIDGenerator) :
    Except PyErr (String × TS6SIDGenerator) :=
  .error (.attributeError "TS6SIDGenerator object has no attribute servers")

/-! ## The per-network state store

Modelled from the spec: the protocol modules run against the `Irc`
state store of `pylinkirc.classes` (users, servers and channels indexed
by identifier; channels auto-created on first reference, as with a
defaultdict).  Only the fields the analysed code touches are kept.
Outbound wire lines are recorded in `sent`; an operation that raises
returns `Except.error` and, since the send is sequenced after the
guard in every embedded operation exactly as in the source, an error
result means no line was emitted by that operation. -/

structure IrcUser where
  nick : String
  ts : Nat
  uid : String
  server : String
  ident : String
  host : String
  realname : String
  realhost : String
  ip : String
  away : String
  channels : List String
  modes : List (String × Option String)
  deriving BEq, DecidableEq, Repr

structure IrcServer where
  uplink : String
  name : String
  internal : Bool
  desc : String
  users : List String
  deriving BEq, DecidableEq, Repr

structure IrcChannel where
  ts : Nat
  topic : String
  topicset : Bool
  users : List String
  modes : List (String × Option String)
  prefixmodes : List (String × List String)
  deriving BEq, DecidableEq, Repr

structure NetState where
  name : String
  sid : String
  now : Nat
  users : List (String × IrcUser)
  servers : List (String × IrcServer)
  channels : List (String × IrcChannel)
  cmodes : List (String × String)
  prefixmodes : List (String × String)
  uidgen : List (String × Nat)
  sent : List String
  deriving BEq, DecidableEq, Repr

/-- Modelled from the spec: a channel is created on first reference with
the current time as its TS (defaultdict behaviour of the channel
table). -/
def defaultChan (now : Nat) : IrcChannel :=
  { ts := now, topic := "", topicset := false, users := [], modes := [], prefixmodes := [] }

def getChannel (st : NetState) (channel : String) : IrcChannel :=
  (alget st.channels channel).getD (defaultChan st.now)

def setChannel (st : NetState) (channel : String) (ch : IrcChannel) : NetState :=
  { st with channels := alset st.channels channel ch }

/-- Modelled from the spec: `irc.isInternalServer(sid)` — the server
exists and was spawned by this engine. -/
def isInternalServer (st : NetState) (s : String) : Bool :=
  match alget st.servers s with
  | some sv => sv.internal
  | none => false

/-- Modelled from the spec: `irc.isInternalClient(uid)` — the user
exists and its home server is internal. -/
def isInternalClient (st : NetState) (u : String) : Bool :=
  match alget st.users u with
  | some uo => isInternalServer st uo.server
  | none => false

/-- Modelled from the spec: `irc.toLower` — channel names are keyed by
their lower-cased form. -/
def toLower (s : String) : String := String.mk (s.toList.map Char.toLower)

/-- Modelled from the spec: `utils.isChannel` — channel targets begin
with `#`. -/
def isChannel (s : String) : Bool := pyStartsWith s "#"

def sendLine (st : NetState) (line : String) : NetState :=
  { st with sent := st.sent ++ [line] }

/-- `P10Protocol._send_with_prefix`: `"<source> <text>"`. -/
def p10SendPfx (st : NetState) (source text : String) : NetState :=
  sendLine st (source ++ " " ++ text)

/-- `TS6BaseProtocol._send_with_prefix`: `":<source> <msg>"`. -/
def ts6SendPfx (st : NetState) (source msg : String) : NetState :=
  sendLine st (":" ++ source ++ " " ++ msg)

/-- Modelled from the spec: `utils.joinModes` renders a set of mode
changes back into a canonical `+modes args` string. -/
def joinModes (modes : List (String × Option String)) : String :=
  if modes.isEmpty then "+"
  else
    let letters := String.mk (modes.map (fun m => m.1.toList.getLastD ' '))
    let args := modes.filterMap Prod.snd
    "+" ++ letters ++ args.foldl (fun a s => a ++ " " ++ s) ""

/-- Letters of a channel-mode category such as `*A`. -/
def cmodeCat (st : NetState) (cat : String) : List Char :=
  ((alget st.cmodes cat).getD "").toList

def prefixLetters (st : NetState) : List Char :=
  st.prefixmodes.map (fun p => p.1.toList.headD ' ')

/-- Modelled from the spec: one step of applying a parsed mode change to
a channel (prefix modes go to the per-member prefix lists, list modes
accumulate, other modes replace any previous value of the letter). -/
def applyOneChanMode (st : NetState) (ch : IrcChannel) (m : String × Option String) : IrcChannel :=
  let dir := m.1.toList.headD '+'
  let letter := m.1.toList.getLastD ' '
  let ls := String.mk [letter]
  if (prefixLetters st).contains letter then
    match m.2 with
    | some uid =>
      let cur := (alget ch.prefixmodes ls).getD []
      let cur := if dir = '-' then cur.filter (· ≠ uid)
                 else if cur.contains uid then cur else cur ++ [uid]
      { ch with prefixmodes := alset ch.prefixmodes ls cur }
    | none => ch
  else if dir = '-' then
    { ch with modes := ch.modes.filter (fun p => ¬ (p.1 = ls ∧ ((cmodeCat st "*A").contains letter → p.2 = m.2))) }
  else if (cmodeCat st "*A").contains letter then
    if ch.modes.contains (ls, m.2) then ch else { ch with modes := ch.modes ++ [(ls, m.2)] }
  else
    { ch with modes := ch.modes.filter (fun p => p.1 ≠ ls) ++ [(ls, m.2)] }

def applyModesChan (st : NetState) (ch : IrcChannel) (changes : List (String × Option String)) : IrcChannel :=
  changes.foldl (applyOneChanMode st) ch

/-- Modelled from the spec: applying parsed mode changes to a user's
mode set. -/
def applyModesUser (u : IrcUser) (changes : List (String × Option String)) : IrcUser :=
  changes.foldl (fun u m =>
    let dir := m.1.toList.headD '+'
    let ls := String.mk [m.1.toList.getLastD ' ']
    if dir = '-' then { u with modes := u.modes.filter (fun p => p.1 ≠ ls) }
    else { u with modes := u.modes.filter (fun p => p.1 ≠ ls) ++ [(ls, m.2)] }) u

/-- Modelled from the spec: `utils.parseModes` turns a raw modestring
plus parameters into `(+x, arg)` pairs; letters of categories `*A`,
`*B`, prefix modes, and (when setting) `*C` consume one parameter. -/
def parseModes (st : NetState) (modestring : List String) : List (String × Option String) :=
  match modestring with
  | [] => []
  | first :: params =>
    let argLetters := fun (sign : Char) =>
      cmodeCat st "*A" ++ cmodeCat st "*B" ++ prefixLetters st ++
      (if sign = '+' then cmodeCat st "*C" else [])
    let step := fun (acc : Char × List String × List (String × Option String)) (c : Char) =>
      let (sign, ps, out) := acc
      if c = '+' ∨ c = '-' then (c, ps, out)
      else if (argLetters sign).contains c then
        match ps with
        | a :: rest => (sign, rest, out ++ [(String.mk [sign, c], some a)])
        | [] => (sign, [], out ++ [(String.mk [sign, c], none)])
      else (sign, ps, out ++ [(String.mk [sign, c], none)])
    (first.toList.foldl step ('+', params, [])).2.2

/-- Modelled from the spec (§4.3): `irc.updateTS` — a lower incoming TS
wins and replaces the channel's modes with the incoming changes, an
equal TS merges, a higher incoming TS is stale and its mode changes are
dropped.  The channel entry is (re)written in every case, as the
source's defaultdict accesses materialise it. -/
def updateTS (st : NetState) (_source channel : String) (their_ts : Nat)
    (changes : List (String × Option String)) : NetState :=
  let ch := getChannel st channel
  if their_ts < ch.ts then
    let cleared := { ch with
      ts := their_ts
      modes := []
      prefixmodes := ch.prefixmodes.map (fun p => (p.1, ([] : List String))) }
    setChannel st channel (applyModesChan st cleared changes)
  else if their_ts = ch.ts then
    setChannel st channel (applyModesChan st ch changes)
  else
    setChannel st channel ch

/-- Modelled from the spec: `IrcChannel.removeuser` discards the user
from the member set and from every prefix-mode list. -/
def IrcChannel.removeuser (ch : IrcChannel) (uid : String) : IrcChannel :=
  { ch with
    users := ch.users.filter (· ≠ uid)
    prefixmodes := ch.prefixmodes.map (fun p => (p.1, p.2.filter (· ≠ uid))) }

/-- Modelled from the spec: `IrcChannel.isOp` — the member holds the
`o` prefix mode. -/
def IrcChannel.isOp (ch : IrcChannel) (uid : String) : Bool :=
  ((alget ch.prefixmodes "o").getD []).contains uid

/-- Modelled from the spec: `IrcChannel.isHalfop` — the member holds
the `h` prefix mode. -/
def IrcChannel.isHalfop (ch : IrcChannel) (uid : String) : Bool :=
  ((alget ch.prefixmodes "h").getD []).contains uid

/-- Modelled from the spec: `irc.getFriendlyName` — a user's nick, a
server's name, or a KeyError. -/
def getFriendlyName (st : NetState) (entity : String) : Except PyErr String :=
  match alget st.users entity with
  | some u => .ok u.nick
  | none =>
    match alget st.servers entity with
    | some sv => .ok sv.name
    | none => .error (.keyError entity)

/-- Modelled from the spec: `irc.getServer` — the SID a user lives on. -/
def getServerOf (st : NetState) (uid : String) : Except PyErr String :=
  match alget st.users uid with
  | some u => .ok u.server
  | none => .error (.keyError uid)

/-- Modelled from the spec: `irc.getHostmask` — `nick!ident@host`. -/
def getHostmask (st : NetState) (uid : String) : Except PyErr String :=
  match alget st.users uid with
  | some u => .ok (u.nick ++ "!" ++ u.ident ++ "@" ++ u.host)
  | none => .error (.keyError uid)

/-- Modelled from the spec: `irc.removeClient` — drop a user from every
channel member list, from its home server's user set and from the user
table. -/
def removeClient (st : NetState) (uid : String) : NetState :=
  let chans := st.channels.map (fun (p : String × IrcChannel) => (p.1, p.2.removeuser uid))
  let servs := st.servers.map
    (fun (p : String × IrcServer) => (p.1, { p.2 with users := p.2.users.filter (· ≠ uid) }))
  { st with
    channels := chans
    servers := servs
    users := aldel st.users uid }

/-- Apply parsed mode changes to a user or channel target
(`irc.applyModes`, modelled from the spec). -/
def applyModes (st : NetState) (target : String) (changes : List (String × Option String)) :
    NetState :=
  if isChannel target then
    setChannel st target (applyModesChan st (getChannel st target) changes)
  else
    match alget st.users target with
    | some u => { st with users := alset st.users target (applyModesUser u changes) }
    | none => st

/-! ## PART handling (p10.py lines 1147-1171, ts6_common.py lines 356-373) -/

/-- Embedding of `P10Protocol.handle_part`.  For each comma-separated
channel: the source is discarded from the member and prefix lists, the
channel is removed from the source's channel set (a missing user's
`KeyError` is caught and ignored), and — under the source comment
"Clear empty non-permanent channels." — the channel is deleted whenever
its member list became empty, with no check of any permanent mode. -/
def p10_handle_part (st : NetState) (source : String) (args : List String) :
    NetState × List String × String :=
  let chans := pySplit (toLower (args.headD "")) ','
  let reason := args.getD 1 ""
  let st := chans.foldl (fun st channel =>
    let st := setChannel st channel ((getChannel st channel).removeuser source)
    let st :=
      match alget st.users source with
      | some u =>
        let u2 := { u with channels := u.channels.filter (· ≠ channel) }
        { st with users := alset st.users source u2 }
      | none => st
    if (getChannel st channel).users.isEmpty then
      { st with channels := aldel st.channels channel }
    else st) st
  (st, chans, reason)

/-- Embedding of `TS6BaseProtocol.handle_part`: identical to the P10
variant except that an emptied channel is only deleted when
`(cmodes.get('permanent'), None)` is not among its modes. -/
def ts6_handle_part (st : NetState) (source : String) (args : List String) :
    NetState × List String × String :=
  let chans := pySplit (toLower (args.headD "")) ','
  let reason := args.getD 1 ""
  let st := chans.foldl (fun st channel =>
    let st := setChannel st channel ((getChannel st channel).removeuser source)
    let st :=
      match alget st.users source with
      | some u =>
        let u2 := { u with channels := u.channels.filter (· ≠ channel) }
        { st with users := alset st.users source u2 }
      | none => st
    let ch := getChannel st channel
    let isPerm :=
      match alget st.cmodes "permanent" with
      | some letter => ch.modes.contains (letter, none)
      | none => false
    if ch.users.isEmpty && !isPerm then
      { st with channels := aldel st.channels channel }
    else st) st
  (st, chans, reason)

/-! ## Outbound P10 operations (p10.py) -/

/-- Embedding of `P10Protocol.spawnClient` (p10.py lines 243-299).
`server = server or self.sid`, `ts = ts or int(time.time())`,
`realname = realname or ...` and `realhost = realhost or host` are
Python `or`-coalescings, so `None`, the empty string and `0` all select
the default.  The incremental UID generator of
`utils.IncrementalUIDGenerator` is modelled from the spec as a
per-server counter rendered in the P10 64-character alphabet. -/
def p10_spawnClient (st : NetState) (nick ident host : String)
    (realhostArg : Option String) (modes : List (String × Option String))
    (serverArg : Option String) (ip : String) (realnameArg : Option String)
    (tsArg : Option Nat) : Except PyErr (NetState × String) := do
  let server := orDefaultStr serverArg st.sid
  if ¬ isInternalServer st server then
    throw (.valueError "Server is not a PyLink server!")
  let counter := (alget st.uidgen server).getD 0
  if counter ≥ 64 ^ 3 then
    throw (.runtimeError "Ran out of UIDs!")
  let uid := server ++ String.mk
    [b64char (counter / 4096 % 64), b64char (counter / 64 % 64), b64char (counter % 64)]
  let st := { st with uidgen := alset st.uidgen server (counter + 1) }
  let ts := orDefaultNat tsArg st.now
  let realname := orDefaultStr realnameArg "PyLink"
  let realhost := orDefaultStr realhostArg host
  let raw_modes := joinModes modes
  let u : IrcUser :=
    { nick := nick
      ts := ts
      uid := uid
      server := server
      ident := ident
      host := host
      realname := realname
      realhost := realhost
      ip := ip
      away := ""
      channels := []
      modes := [] }
  let st := { st with users := alset st.users uid u }
  let st := applyModes st uid modes
  let st :=
    match alget st.servers server with
    | some sv => { st with servers := alset st.servers server { sv with users := sv.users ++ [uid] } }
    | none => st
  let b64ip := spawnClient_b64ip ip
  let st := p10SendPfx st server
    ("N " ++ nick ++ " 1 " ++ toString ts ++ " " ++ ident ++ " " ++ host ++ " " ++
     raw_modes ++ " " ++ b64ip ++ " " ++ uid ++ " :" ++ realname)
  pure (st, uid)

/-- Embedding of `P10Protocol.away` (p10.py lines 301-311). -/
def p10_away (st : NetState) (source text : String) : Except PyErr NetState := do
  if ¬ isInternalClient st source then
    throw (.lookupError "No such PyLink client exists.")
  let st := if text ≠ "" then p10SendPfx st source ("A :" ++ text) else p10SendPfx st source "A"
  match alget st.users source with
  | some u => pure { st with users := alset st.users source { u with away := text } }
  | none => throw (.keyError source)

/-- Embedding of `P10Protocol.message` (p10.py lines 382-387). -/
def p10_message (st : NetState) (numeric target text : String) : Except PyErr NetState := do
  if ¬ isInternalClient st numeric then
    throw (.lookupError "No such PyLink client exists.")
  pure (p10SendPfx st numeric ("P " ++ target ++ " :" ++ text))

/-- Embedding of `P10Protocol.notice` (p10.py lines 454-460). -/
def p10_notice (st : NetState) (numeric target text : String) : Except PyErr NetState := do
  if ¬ isInternalClient st numeric ∧ ¬ isInternalServer st numeric then
    throw (.lookupError "No such PyLink client/server exists.")
  pure (p10SendPfx st numeric ("O " ++ target ++ " :" ++ text))

/-- Chunks of at most twelve elements: the `while modes[:12]` loop. -/
def chunks12 {α : Type} : List α → List (List α)
  | [] => []
  | x :: rest => (x :: rest.take 11) :: chunks12 (rest.drop 11)
termination_by l => l.length
decreasing_by simp [List.length_drop]; omega

/-- Modelled from the spec: `irc.wrapModes` batches mode changes into
rendered modestrings, each within the given byte budget. -/
def wrapModes (modes : List (String × Option String)) (bufsize : Nat) : List String :=
  let rec go : List (String × Option String) → List (String × Option String) → List String
    | [], acc => if acc.isEmpty then [] else [joinModes acc.reverse]
    | m :: rest, acc =>
      if acc.isEmpty then go rest [m]
      else if (joinModes (acc.reverse ++ [m])).length ≤ bufsize then go rest (m :: acc)
      else joinModes acc.reverse :: go rest [m]
  go modes []

/-- Embedding of `P10Protocol.mode` (p10.py lines 389-434). -/
def p10_mode (st : NetState) (numeric target : String)
    (modesArg : List (String × Option String)) (tsArg : Option Nat) :
    Except PyErr NetState := do
  if ¬ isInternalClient st numeric ∧ ¬ isInternalServer st numeric then
    throw (.lookupError "No such PyLink client/server exists.")
  let modes := modesArg
  let is_cmode := isChannel target
  if is_cmode then
    let cobj := getChannel st (toLower target)
    let ts := orDefaultNat tsArg cobj.ts
    let numeric ←
      if (alget st.servers numeric).isNone && !(cobj.isOp numeric) && !(cobj.isHalfop numeric)
      then getServerOf st numeric
      else pure numeric
    let bufsize := 510 - numeric.length - 4 - target.length - (toString ts).length
    let st := applyModes st target modes
    let st := (chunks12 modes).foldl (fun st chunk =>
      (wrapModes chunk bufsize).foldl (fun st wrapped =>
        p10SendPfx st numeric ("M " ++ target ++ " " ++ wrapped ++ " " ++ toString ts)) st) st
    pure st
  else
    match alget st.users target with
    | none => throw (.assertionError "Unknown mode target")
    | some uo =>
      let real_target := uo.nick
      let st := applyModes st target modes
      let st := (chunks12 modes).foldl (fun st chunk =>
        p10SendPfx st numeric ("M " ++ real_target ++ " " ++ joinModes chunk)) st
      pure st

/-- Embedding of `P10Protocol.nick` (p10.py lines 436-446). -/
def p10_nick (st : NetState) (numeric newnick : String) : Except PyErr NetState := do
  if ¬ isInternalClient st numeric then
    throw (.lookupError "No such PyLink client exists.")
  let st := p10SendPfx st numeric ("N " ++ newnick ++ " " ++ toString st.now)
  match alget st.users numeric with
  | some u => pure { st with users := alset st.users numeric { u with nick := newnick, ts := st.now } }
  | none => throw (.keyError numeric)

/-- Embedding of `P10Protocol.numeric` (p10.py lines 448-452): the raw
numeric is sent with no precondition check on the source. -/
def p10_numeric (st : NetState) (source num target text : String) : Except PyErr NetState :=
  pure (p10SendPfx st source (num ++ " " ++ target ++ " " ++ text))

/-- Embedding of `P10Protocol.kick` (p10.py lines 343-366). -/
def p10_kick (st : NetState) (numeric channel target reasonArg : String) :
    Except PyErr NetState := do
  if ¬ isInternalClient st numeric ∧ ¬ isInternalServer st numeric then
    throw (.lookupError "No such PyLink client/server exists.")
  let channel := toLower channel
  let reason := if reasonArg = "" then "No reason given" else reasonArg
  let cobj := getChannel st channel
  let (numeric, reason) ←
    if (alget st.servers numeric).isNone && !(cobj.isOp numeric) && !(cobj.isHalfop numeric) then do
      let fn ← getFriendlyName st numeric
      let sv ← getServerOf st numeric
      pure (sv, "(" ++ fn ++ ") " ++ reason)
    else
      pure (numeric, reason)
  let st := p10SendPfx st numeric ("K " ++ channel ++ " " ++ target ++ " :" ++ reason)
  pure (p10_handle_part st target [channel]).1

/-- Embedding of `P10Protocol.kill` (p10.py lines 368-377). -/
def p10_kill (st : NetState) (numeric target reason : String) : Except PyErr NetState := do
  if ¬ isInternalClient st numeric ∧ ¬ isInternalServer st numeric then
    throw (.lookupError "No such PyLink client/server exists.")
  let st := p10SendPfx st numeric ("D " ++ target ++ " :Killed (" ++ reason ++ ")")
  pure (removeClient st target)

/-- Embedding of `P10Protocol.part` (p10.py lines 462-473). -/
def p10_part (st : NetState) (client channel reason : String) : Except PyErr NetState := do
  let channel := toLower channel
  if ¬ isInternalClient st client then
    throw (.lookupError "No such PyLink client exists.")
  let msg := if reason ≠ "" then "L " ++ channel ++ " :" ++ reason else "L " ++ channel
  let st := p10SendPfx st client msg
  pure (p10_handle_part st client [channel]).1

/-- Embedding of `P10Protocol.quit` (p10.py lines 486-492). -/
def p10_quit (st : NetState) (numeric reason : String) : Except PyErr NetState := do
  if isInternalClient st numeric then
    let st := p10SendPfx st numeric ("Q :" ++ reason)
    pure (removeClient st numeric)
  else
    throw (.lookupError "No such PyLink client exists.")

/-- Embedding of `P10Protocol.topic` (p10.py lines 675-690). -/
def p10_topic (st : NetState) (numeric target text : String) : Except PyErr NetState := do
  if ¬ isInternalClient st numeric then
    throw (.lookupError "No such PyLink client exists.")
  let sendername ← getHostmask st numeric
  let creationts := (getChannel st target).ts
  let st := p10SendPfx st numeric
    ("T " ++ target ++ " " ++ sendername ++ " " ++ toString creationts ++ " " ++
     toString st.now ++ " :" ++ text)
  let ch := getChannel st target
  pure (setChannel st target { ch with topic := text, topicset := true })

/-! ## Outbound TS6 operations (ts6_common.py) -/

/-- Embedding of `TS6BaseProtocol.numeric` (ts6_common.py lines
126-132): no precondition check (`_expandPUID` is the identity in this
base class). -/
def ts6_numeric (st : NetState) (source num target text : String) : Except PyErr NetState :=
  pure (ts6SendPfx st source (num ++ " " ++ target ++ " " ++ text))

/-- Embedding of `TS6BaseProtocol.away` (ts6_common.py lines 286-293):
the AWAY line is sent without any internal-client check, and only the
subsequent `self.users[source]` write can raise (a `KeyError`, after
the line already went out). -/
def ts6_away (st : NetState) (source text : String) : Except PyErr NetState := do
  let st := if text ≠ "" then ts6SendPfx st source ("AWAY :" ++ text) else ts6SendPfx st source "AWAY"
  match alget st.users source with
  | some u => pure { st with users := alset st.users source { u with away := text } }
  | none => throw (.keyError source)

/-- Embedding of `TS6BaseProtocol.kick` (ts6_common.py lines 134-153). -/
def ts6_kick (st : NetState) (numeric channel target reasonArg : String) :
    Except PyErr NetState := do
  if ¬ isInternalClient st numeric ∧ ¬ isInternalServer st numeric then
    throw (.lookupError "No such PyLink client/server exists.")
  let channel := toLower channel
  let reason := if reasonArg = "" then "No reason given" else reasonArg
  let st := ts6SendPfx st numeric ("KICK " ++ channel ++ " " ++ target ++ " :" ++ reason)
  pure (ts6_handle_part st target [channel]).1

/-- Embedding of `TS6BaseProtocol.kill` (ts6_common.py lines 155-186). -/
def ts6_kill (st : NetState) (numeric target reason : String) : Except PyErr NetState := do
  if ¬ isInternalClient st numeric ∧ ¬ isInternalServer st numeric then
    throw (.lookupError "No such PyLink client/server exists.")
  if (alget st.users target).isNone then
    throw (.assertionError "Unknown target for kill")
  let killpath :=
    match alget st.users numeric with
    | some uo => uo.host ++ "!" ++ uo.nick
    | none =>
      match alget st.servers numeric with
      | some sv => sv.name
      | none => ((alget st.servers st.sid).map IrcServer.name).getD ""
  let st := ts6SendPfx st numeric ("KILL " ++ target ++ " :" ++ killpath ++ " (" ++ reason ++ ")")
  pure (removeClient st target)

/-- Embedding of `TS6BaseProtocol.nick` (ts6_common.py lines 188-198). -/
def ts6_nick (st : NetState) (numeric newnick : String) : Except PyErr NetState := do
  if ¬ isInternalClient st numeric then
    throw (.lookupError "No such PyLink client exists.")
  let st := ts6SendPfx st numeric ("NICK " ++ newnick ++ " " ++ toString st.now)
  match alget st.users numeric with
  | some u => pure { st with users := alset st.users numeric { u with nick := newnick, ts := st.now } }
  | none => throw (.keyError numeric)

/-- Embedding of `TS6BaseProtocol.part` (ts6_common.py lines 200-210). -/
def ts6_part (st : NetState) (client channel reason : String) : Except PyErr NetState := do
  let channel := toLower channel
  if ¬ isInternalClient st client then
    throw (.lookupError "No such PyLink client exists.")
  let msg := if reason ≠ "" then "PART " ++ channel ++ " :" ++ reason else "PART " ++ channel
  let st := ts6SendPfx st client msg
  pure (ts6_handle_part st client [channel]).1

/-- Embedding of `TS6BaseProtocol.quit` (ts6_common.py lines 212-218). -/
def ts6_quit (st : NetState) (numeric reason : String) : Except PyErr NetState := do
  if isInternalClient st numeric then
    let st := ts6SendPfx st numeric ("QUIT :" ++ reason)
    pure (removeClient st numeric)
  else
    throw (.lookupError "No such PyLink client exists.")

/-- Embedding of `TS6BaseProtocol.message` (ts6_common.py lines 220-228). -/
def ts6_message (st : NetState) (numeric target text : String) : Except PyErr NetState := do
  if ¬ isInternalClient st numeric then
    throw (.lookupError "No such PyLink client exists.")
  pure (ts6SendPfx st numeric ("PRIVMSG " ++ target ++ " :" ++ text))

/-- Embedding of `TS6BaseProtocol.notice` (ts6_common.py lines 230-239). -/
def ts6_notice (st : NetState) (numeric target text : String) : Except PyErr NetState := do
  if ¬ isInternalClient st numeric ∧ ¬ isInternalServer st numeric then
    throw (.lookupError "No such PyLink client/server exists.")
  pure (ts6SendPfx st numeric ("NOTICE " ++ target ++ " :" ++ text))

/-- Embedding of `TS6BaseProtocol.topic` (ts6_common.py lines 241-247). -/
def ts6_topic (st : NetState) (numeric target text : String) : Except PyErr NetState := do
  if ¬ isInternalClient st numeric then
    throw (.lookupError "No such PyLink client exists.")
  let st := ts6SendPfx st numeric ("TOPIC " ++ target ++ " :" ++ text)
  let ch := getChannel st target
  pure (setChannel st target { ch with topic := text, topicset := true })

/-! ## sjoin (p10.py lines 494-627) -/

/-- Embedding of `P10Protocol.access_sort`: the summed access weights
(`o` 100, `h` 10, `v` 1, anything else 0) of a `(prefixmodes, uid)`
pair. -/
def access_sort (userpair : String × String) : Nat :=
  (userpair.1.toList.map (fun c =>
    if c = 'o' then 100 else if c = 'h' then 10 else if c = 'v' then 1 else 0)).sum

/-- Stable insertion step for `sorted(users, key=self.access_sort)`. -/
def sortInsert (x : String × String) : List (String × String) → List (String × String)
  | [] => [x]
  | y :: ys => if access_sort x ≤ access_sort y then x :: y :: ys else y :: sortInsert x ys

/-- Python's `sorted` is a stable ascending sort; insertion sort that
keeps an element before later equal-keyed elements models it exactly. -/
def sortByAccess (l : List (String × String)) : List (String × String) :=
  l.foldr sortInsert []

/-- The namelist construction of `sjoin`'s user loop: a user is
annotated `uid:prefixes` when its prefix string is non-empty and
differs from the previous pair's. -/
def buildNamelist : List (String × String) → String → List String
  | [], _ => []
  | (prefixes, user) :: rest, last_prefixes =>
      (if prefixes ≠ "" && prefixes ≠ last_prefixes then user ++ ":" ++ prefixes else user)
        :: buildNamelist rest prefixes

/-- `names_dict.get(uid, '')` for the dict built from `(uid, prefixes)`
pairs (later pairs overwrite earlier ones). -/
def namesDictGet (users : List (String × String)) (uid : String) : String :=
  match users.reverse.find? (fun p => p.2 == uid) with
  | some p => p.1
  | none => ""

/-- Modelled from the spec: `utils.wrapArguments` greedily packs items
into lines of at most `maxLen` bytes after the fixed line head of
`pfxLen` bytes, joined by a one-byte separator; the chunks of items
are returned (the caller renders each line as head ++ joined chunk). -/
def wrapChunksGo (maxLen sepLen pfxLen : Nat) :
    List String → List String → Nat → List (List String)
  | [], cur, _ => if cur.isEmpty then [] else [cur.reverse]
  | item :: rest, cur, curLen =>
    if cur.isEmpty then
      wrapChunksGo maxLen sepLen pfxLen rest [item] (pfxLen + item.length)
    else if curLen + sepLen + item.length ≤ maxLen then
      wrapChunksGo maxLen sepLen pfxLen rest (item :: cur) (curLen + sepLen + item.length)
    else
      cur.reverse :: wrapChunksGo maxLen sepLen pfxLen rest [item] (pfxLen + item.length)

def wrapChunks (maxLen pfxLen : Nat) (items : List String) : List (List String) :=
  wrapChunksGo maxLen 1 pfxLen items [] 0

/-- The post-wrap fixup `sjoin` applies to every continuation line: if
the first wrapped entry carries no `:` annotation but was supposed to
hold prefix modes (`first_prefix`, the entry's prefixes reversed, is
non-empty), the source appends `':%s' % prefixes` — `prefixes` being
the variable leaked from the user loop, i.e. the prefix string of the
LAST sorted userpair, not `first_prefix`. -/
def postWrap (lastPrefixes : String) (users : List (String × String))
    (chunk : List String) : List String :=
  match chunk with
  | [] => []
  | first_uid :: rest =>
    let first_pfx := (namesDictGet users first_uid).toList.reverse
    if ¬ first_uid.toList.contains ':' ∧ first_pfx ≠ [] then
      (first_uid ++ ":" ++ lastPrefixes) :: rest
    else
      first_uid :: rest

/-- Embedding of `P10Protocol.sjoin`.  `users` is the list of
`(prefixmodes, uid)` pairs; wire lines are recorded in `sent`. -/
def p10_sjoin (st : NetState) (serverArg channel : String)
    (users : List (String × String)) (tsArg : Option Nat)
    (modesArg : List (String × Option String)) : Except PyErr NetState := do
  let channel := toLower channel
  let server := if serverArg = "" then st.sid else serverArg
  if users.isEmpty then
    throw (.assertionError "sjoin: No users sent?")
  if server = "" then
    throw (.lookupError "No such PyLink client exists.")
  let chModes := (getChannel st channel).modes
  let modes := if modesArg.isEmpty then chModes else modesArg
  let orig_ts := (getChannel st channel).ts
  let ts := match tsArg with | some t => if t = 0 then orig_ts else t | none => orig_ts
  let listA := cmodeCat st "*A"
  let split := modes.foldl
    (fun (acc : List String × List String × List (String × Option String)) mode =>
      let (bans, exempts, regs) := acc
      let modechar := mode.1.toList.getLastD ' '
      if listA.contains modechar then
        if ¬ chModes.contains (String.mk [modechar], mode.2) then
          if modechar = 'b' then (bans ++ [mode.2.getD ""], exempts, regs)
          else if modechar = 'e' then (bans, exempts ++ [mode.2.getD ""], regs)
          else (bans, exempts, regs)
        else (bans, exempts, regs)
      else (bans, exempts, regs ++ [mode])) ([], [], [])
  let bans := split.1
  let exempts := split.2.1
  let regularmodes := split.2.2
  let usersSorted := sortByAccess users
  let msgpfx := server ++ " B " ++ channel ++ " " ++ toString ts ++ " " ++
                (if ¬ regularmodes.isEmpty then joinModes regularmodes ++ " " else "")
  let namelist := buildNamelist usersSorted ""
  let changedusers := usersSorted.map Prod.snd
  let changedmodes := modes ++ usersSorted.foldl (fun acc p =>
      acc ++ p.1.toList.map (fun c => (String.mk ['+', c], some p.2))) []
  let st ← usersSorted.foldlM (fun st (p : String × String) =>
      match alget st.users p.2 with
      | some u =>
        let chs := if u.channels.contains channel then u.channels else u.channels ++ [channel]
        pure { st with users := alset st.users p.2 { u with channels := chs } }
      | none => throw (.keyError p.2)) st
  let lastPrefixes := (usersSorted.getLastD ("", "")).1
  let chunks := wrapChunks (510 - 1 - st.prefixmodes.length) msgpfx.length namelist
  let lines := chunks.enum.map (fun (p : Nat × List String) =>
      if p.1 = 0 then msgpfx ++ String.intercalate "," p.2
      else msgpfx ++ String.intercalate "," (postWrap lastPrefixes usersSorted p.2))
  let st := lines.foldl sendLine st
  let ch := getChannel st channel
  let newUsers := ch.users ++ changedusers.filter (fun u => ¬ ch.users.contains u)
  let st := setChannel st channel { ch with users := newUsers }
  let st :=
    if ¬ bans.isEmpty ∨ ¬ exempts.isEmpty then
      let msgpfx2 := msgpfx ++ ":%"
      let st :=
        if ¬ bans.isEmpty then
          ((wrapChunksGo 510 1 msgpfx2.length bans [] 0).map
            (fun c => msgpfx2 ++ String.intercalate " " c)).foldl sendLine st
        else st
      let msgpfx3 := msgpfx2 ++ " ~ "
      if ¬ exempts.isEmpty then
        ((wrapChunksGo 510 1 msgpfx3.length exempts [] 0).map
          (fun c => msgpfx3 ++ String.intercalate " " c)).foldl sendLine st
      else st
    else st
  pure (updateTS st server channel ts changedmodes)

/-! ## handle_burst (p10.py lines 986-1078) -/

structure BurstPayload where
  channel : String
  users : List String
  modes : List (String × Option String)
  ts : Nat
  deriving BEq, DecidableEq, Repr

/-- The state change `handle_burst` applies for a known user: the
channel is added to the user's channel set, and the user to the
channel's member set. -/
def burstAddUser (st : NetState) (channel user : String) (uo : IrcUser) : NetState :=
  let chs := if uo.channels.contains channel then uo.channels else uo.channels ++ [channel]
  let st2 := { st with users := alset st.users user { uo with channels := chs } }
  let ch := getChannel st2 channel
  let members := if ch.users.contains user then ch.users else ch.users ++ [user]
  setChannel st2 channel { ch with users := members }

/-- One iteration of the `handle_burst` user loop: split the userpair on
`:` (a pair without one inherits the previous prefixes); a UID missing
from the user table is logged and skipped with no state change; a known
UID is appended to the namelist, gets the channel added to its set, and
joins the channel's member set, with its prefix modes accumulated into
the changed-modes set. -/
def burstUserStep (channel : String)
    (acc : NetState × List String × List (String × Option String) × String)
    (pair : String) :
    Except PyErr (NetState × List String × List (String × Option String) × String) := do
  let (st, namelist, changedmodes, prevPrefixes) := acc
  let (user, prefixes) ←
    match listSplit ':' pair.toList [] with
    | [u] => pure (String.mk u, prevPrefixes)
    | [u, p] => pure (String.mk u, String.mk p)
    | _ => throw (.valueError "too many values to unpack")
  match alget st.users user with
  | none => pure (st, namelist, changedmodes, prefixes)
  | some uo =>
    pure (burstAddUser st channel user uo, namelist ++ [user],
      changedmodes ++ prefixes.toList.map (fun c => (String.mk ['+', c], some user)),
      prefixes)

/-- Embedding of `P10Protocol.handle_burst`. -/
def p10_handle_burst (st : NetState) (source : String) (args : List String) :
    Except PyErr (NetState × Option BurstPayload) := do
  if args.length < 3 then
    return (st, none)
  let channel := toLower (args.headD "")
  let lastArg := args.getLastD ""
  let (bans, args) :=
    if pyStartsWith lastArg "%" then
      let pieces := pySplit (String.mk lastArg.toList.tail) ' '
      let step := fun (acc : Bool × List (String × Option String)) (host : String) =>
        let (ex, out) := acc
        if host = "" then (ex, out)
        else if host = "~" then (true, out)
        else if ex then (true, out ++ [("+e", some host)])
        else (ex, out ++ [("+b", some host)])
      ((pieces.foldl step (false, [])).2, args.dropLast)
    else ([], args)
  let modestring := (args.drop 2).dropLast
  let parsedmodes := if ¬ modestring.isEmpty then parseModes st modestring else []
  let changedmodes0 := parsedmodes ++ bans
  let userlist := pySplit (args.getLastD "") ','
  let (st, namelist, changedmodes, _) ←
    if args.getLastD "" ≠ args.getD 1 "" then
      userlist.foldlM (burstUserStep channel) (st, [], changedmodes0, "")
    else
      pure (st, [], changedmodes0, "")
  let their_ts ←
    match parseNatStr (args.getD 1 "") with
    | some n => pure n
    | none => throw (.valueError "invalid literal for int")
  let st := updateTS st source channel their_ts changedmodes
  pure (st, some { channel := channel, users := namelist, modes := parsedmodes, ts := their_ts })

/-! ## normalizeNick (plugins/relay.py lines 19-55) -/

/-- The relay-side view of a network `normalizeNick` consults.
`usedNicks` models `utils.nickToUid` (modelled from the spec: the
truthy lookup of a nick already in use on the target network). -/
structure RelayNet where
  protoname : String
  maxnicklen : Nat
  usedNicks : List String
  deriving BEq, DecidableEq, Repr

/-- Embedding of `relay.normalizeNick`, with explicit recursion fuel:
`none` models both the diverging degenerate cases and a failure of the
final `assert len(nick) <= maxnicklen`.  On charybdis `/` is replaced
by `|` in the separator and the nick; a digit-leading nick gets `_`
prepended; the nick is truncated so that the `separator + netname` tag
always fits; a collision retries recursively with the separator
lengthened by its own last character, and the loop re-checks the
recursive result (a still-colliding result would loop forever, hence
`none`). -/
def normalizeNick (irc : RelayNet) (netname : String) :
    String → String → Nat → Option String
  | _, _, 0 => none
  | nickArg, sepArg, fuel + 1 =>
    let orig_nick := nickArg
    let separator := if irc.protoname = "charybdis" then pyReplace sepArg '/' '|'
                     else sepArg
    let nick := if irc.protoname = "charybdis" then pyReplace nickArg '/' '|' else nickArg
    let nick := if startsWithDigit nick then "_" ++ nick else nick
    let suffix := separator ++ netname
    let nick := String.mk (nick.toList.take irc.maxnicklen)
    let allowedlength : Int := (irc.maxnicklen : Int) - (suffix.length : Int)
    let nick := pySliceTo nick allowedlength
    let nick := nick ++ suffix
    let result : Option String :=
      if irc.usedNicks.contains nick then
        match separator.toList.getLast? with
        | some c =>
          match normalizeNick irc netname orig_nick (separator ++ String.mk [c]) fuel with
          | some n2 => if irc.usedNicks.contains n2 then none else some n2
          | none => none
        | none => none
      else some nick
    match result with
    | none => none
    | some r => if r.length ≤ irc.maxnicklen then some r else none


/-- The character a separator character becomes after the charybdis
`/`-to-`|` replacement (identity on other dialects). -/
def chRep (irc : RelayNet) (ch : Char) : Char :=
  if irc.protoname = "charybdis" ∧ ch = '/' then '|' else ch

/-- A relay network with no nicks in use, for exercising `normalizeNick`. -/
def c8net : RelayNet := { protoname := "p10", maxnicklen := 30, usedNicks := [] }

/-! ## Definitions used by the verification theorems

Index lists, projections and concrete network states the theorems below
evaluate the embeddings on. -/

def ipv4idx (a b c d : Nat) : List Nat :=
  [0, 0, a / 64, a % 64, b / 4, b % 4 * 16 + c / 16, c % 16 * 4 + d / 64, d % 64]

/-- The two characters `p10b64encode` keeps for an in-range numeric. -/
def p10sidChars (n : Nat) : List Char :=
  [b64char (n / 2 ^ 8 % 256 % 16 * 4 + n % 256 / 64), b64char (n % 256 % 64)]

/-- First comma-separated entry of a wire line's last argument. -/
def firstEntryOfLine (l : String) : String :=
  ((pySplit ((pySplit l ' ').getLastD "") ',').headD "")

/-- The head UID of a BURST userpair string (the part before any `:`). -/
def burstPairUid (pair : String) : String :=
  String.mk ((listSplit ':' pair.toList []).headD [])

def mkTestUser (uid server : String) (chans : List String) : IrcUser :=
  { nick := uid
    ts := 900
    uid := uid
    server := server
    ident := "u"
    host := "h"
    realname := "r"
    realhost := "h"
    ip := "0.0.0.0"
    away := ""
    channels := chans
    modes := [] }

def c1uid (i : Nat) : String :=
  "ABAAA" ++ (if i < 10 then "00" else if i < 100 then "0" else "") ++ toString i

/-- Fifty-five voiced users followed by one opped user: a realistic
bulk join whose namelist overflows one 510-byte line. -/
def c1users : List (String × String) :=
  (List.range 55).map (fun i => ("v", c1uid i)) ++ [("o", c1uid 55)]

def c1state : NetState :=
  { name := "testnet"
    sid := "AB"
    now := 1000000000
    users := c1users.map (fun p => (p.2, mkTestUser p.2 "AB" []))
    servers := [("AB", { uplink := "", name := "pylink.server", internal := true, desc := "d",
                         users := c1users.map Prod.snd })]
    channels := [("#test", { ts := 1000000000, topic := "", topicset := false, users := [],
                             modes := [], prefixmodes := [] })]
    cmodes := [("*A", "be"), ("permanent", "z")]
    prefixmodes := [("o", "@"), ("v", "+")]
    uidgen := []
    sent := [] }

/-- A network with one live user owned by the non-internal uplink
server `42`: a legal actor for nothing. -/
def c4state : NetState :=
  { name := "testnet"
    sid := "AB"
    now := 1000
    users := [("42AAAAAAA", mkTestUser "42AAAAAAA" "42" [])]
    servers := [("AB", { uplink := "", name := "pylink.server", internal := true, desc := "d", users := [] }),
                ("42", { uplink := "AB", name := "real.server", internal := false, desc := "d",
                         users := ["42AAAAAAA"] })]
    channels := []
    cmodes := [("*A", "be"), ("permanent", "z")]
    prefixmodes := [("o", "@"), ("v", "+")]
    uidgen := []
    sent := [] }

/-- A network holding a permanent (`+z`) channel whose single member is
about to part. -/
def c7state : NetState :=
  { name := "testnet"
    sid := "AB"
    now := 1000
    users := [("ABAAA0001", mkTestUser "ABAAA0001" "AB" ["#perm"])]
    servers := [("AB", { uplink := "", name := "pylink.server", internal := true, desc := "d",
                         users := ["ABAAA0001"] })]
    channels := [("#perm", { ts := 900, topic := "", topicset := false, users := ["ABAAA0001"],
                             modes := [("z", none)], prefixmodes := [("o", []), ("v", [])] })]
    cmodes := [("*A", "be"), ("permanent", "z")]
    prefixmodes := [("o", "@"), ("v", "+")]
    uidgen := []
    sent := [] }

/-- A network with two known users, for bursting a channel whose user
list also names an unknown UID. -/
def c9state : NetState :=
  { name := "testnet"
    sid := "AB"
    now := 2000
    users := [("ABAAA0001", mkTestUser "ABAAA0001" "42" []),
              ("ABAAA0002", mkTestUser "ABAAA0002" "42" [])]
    servers := [("AB", { uplink := "", name := "pylink.server", internal := true, desc := "d", users := [] }),
                ("42", { uplink := "AB", name := "real.server", internal := false, desc := "d",
                         users := ["ABAAA0001", "ABAAA0002"] })]
    channels := [("#test", { ts := 1500, topic := "", topicset := false, users := [],
                             modes := [], prefixmodes := [] })]
    cmodes := [("*A", "be"), ("permanent", "z")]
    prefixmodes := [("o", "@"), ("v", "+")]
    uidgen := []
    sent := [] }

/-- Concrete BURST arguments for `c9state`: channel `#test`, TS 1600, and a
user list naming the two known UIDs (the second with prefix `o`) plus the
unknown UID `ABAAA9999`. -/
def c9args : List String :=
  ["#test", "1600", "ABAAA0001,ABAAA9999,ABAAA0002:o"]

/-- A network where the internal user `ABAAA0001` sits unprivileged in
`#test` next to the kick target `42AAAAAAA`. -/
def c10state : NetState :=
  { name := "testnet"
    sid := "AB"
    now := 3000
    users := [("ABAAA0001", mkTestUser "ABAAA0001" "AB" ["#test"]),
              ("42AAAAAAA", mkTestUser "42AAAAAAA" "42" ["#test"])]
    servers := [("AB", { uplink := "", name := "pylink.server", internal := true, desc := "d",
                         users := ["ABAAA0001"] }),
                ("42", { uplink := "AB", name := "real.server", internal := false, desc := "d",
                         users := ["42AAAAAAA"] })]
    channels := [("#test", { ts := 1500, topic := "", topicset := false,
                             users := ["ABAAA0001", "42AAAAAAA"], modes := [],
                             prefixmodes := [("o", ["42AAAAAAA"]), ("v", [])] })]
    cmodes := [("*A", "be"), ("permanent", "z")]
    prefixmodes := [("o", "@"), ("v", "+")]
    uidgen := []
    sent := [] }

/-! ## General lemmas -/

theorem strLen_mk (l : List Char) : String.length ⟨l⟩ = l.length := rfl

theorem strToList_append (s t : String) : (s ++ t).toList = s.toList ++ t.toList := rfl

theorem b64index_b64char : ∀ n < 64, b64index (b64char n) = n := by decide

theorem b64isAlpha_b64char : ∀ n < 64, b64isAlpha (b64char n) = true := by decide

theorem b64char_inj : ∀ m < 64, ∀ n < 64, b64char m = b64char n → m = n := by decide

theorem map_b64index_b64char (l : List Nat) (h : ∀ n ∈ l, n < 64) :
    (l.map b64char).map b64index = l := by
  induction l with
  | nil => rfl
  | cons x xs ih =>
    simp only [List.map_cons, List.cons.injEq]
    exact ⟨b64index_b64char x (h x (by simp)), ih (fun n hn => h n (by simp [hn]))⟩

theorem filter_b64isAlpha_map (l : List Nat) (h : ∀ n ∈ l, n < 64) :
    (l.map b64char).filter b64isAlpha = l.map b64char := by
  rw [List.filter_eq_self]
  intro c hc
  obtain ⟨n, hn, rfl⟩ := List.mem_map.mp hc
  exact b64isAlpha_b64char n (h n hn)

theorem ipv4idx_lt (a b c d : Nat)
    (ha : a < 256) (hb : b < 256) (hc : c < 256) (hd : d < 256) :
    ∀ n ∈ ipv4idx a b c d, n < 64 := by
  simp only [ipv4idx, List.mem_cons, List.not_mem_nil, or_false]
  rintro n (rfl | rfl | rfl | rfl | rfl | rfl | rfl | rfl) <;> omega

theorem decode_groups_ipv4 (a b c d : Nat)
    (ha : a < 256) (hb : b < 256) (hc : c < 256) (hd : d < 256) :
    b64decodeGroups (ipv4idx a b c d) = [0, 0, a, b, c, d] := by
  simp only [ipv4idx, b64decodeGroups, List.cons.injEq, and_true]
  refine ⟨trivial, ?_, ?_, ?_, ?_, ?_⟩ <;> omega

theorem encodeIPv4_chars (a b c d : Nat) :
    ("AA" ++ encodeIPv4bytes [a, b, c, d]).toList = (ipv4idx a b c d).map b64char := by
  have h0 : (0 : Nat) % 16 * 4 + a / 64 = a / 64 := by omega
  have hc0 : b64char 0 = 'A' := by decide
  have hAA : "AA".toList = ['A', 'A'] := rfl
  simp only [encodeIPv4bytes, b64encodeBytes, List.drop, strToList_append, ipv4idx,
    List.map_cons, List.map_nil, h0, hc0, hAA]
  rfl

/-- The byte-level IPv4 round trip: decoding the six characters
`spawnClient` would emit for octets `a.b.c.d` recovers exactly the
dotted-quad rendering of those octets. -/
theorem decode_encodeIPv4 (a b c d : Nat)
    (ha : a < 256) (hb : b < 256) (hc : c < 256) (hd : d < 256) :
    decode_p10_ip (encodeIPv4bytes [a, b, c, d]) = .ok (some (dottedQuad a b c d)) := by
  have hlen : (encodeIPv4bytes [a, b, c, d]).length = 6 := by
    simp [encodeIPv4bytes, b64encodeBytes, strLen_mk]
  have hidx := ipv4idx_lt a b c d ha hb hc hd
  rw [decode_p10_ip, if_pos (by simp [hlen])]
  rw [b64decodeStr]
  rw [encodeIPv4_chars, filter_b64isAlpha_map _ hidx]
  rw [if_pos (by simp [ipv4idx])]
  rw [map_b64index_b64char _ hidx, decode_groups_ipv4 a b c d ha hb hc hd]
  rfl

/-! ## P10SIDGenerator lemmas -/

theorem p10b64encode_ok (n : Nat) (h : n < 2 ^ 32) :
    p10b64encode n = .ok (String.mk (p10sidChars n)) := by
  rw [p10b64encode, if_pos h]
  rfl

theorem p10sidChars_eq_mod (n m : Nat) (h : p10sidChars n = p10sidChars m) :
    n % 4096 = m % 4096 := by
  simp only [p10sidChars, List.cons.injEq, and_true] at h
  obtain ⟨h1, h2⟩ := h
  have e1 := b64char_inj _ (by omega) _ (by omega) h1
  have e2 := b64char_inj _ (by omega) _ (by omega) h2
  omega

theorem kthSid_ok (g : P10SIDGenerator) (k : Nat)
    (h : g.currentnum + k ≤ g.maxnum) (h32 : g.maxnum < 2 ^ 32) :
    g.kthSid k = .ok (String.mk (p10sidChars (g.currentnum + k))) := by
  induction k generalizing g with
  | zero =>
    rw [P10SIDGenerator.kthSid, P10SIDGenerator.next_sid, if_neg (by omega)]
    rw [p10b64encode_ok _ (by omega)]
    rfl
  | succ k ih =>
    rw [P10SIDGenerator.kthSid, P10SIDGenerator.next_sid, if_neg (by omega)]
    rw [p10b64encode_ok _ (by omega)]
    show P10SIDGenerator.kthSid _ k = _
    have harg : g.currentnum + (k + 1) = (g.currentnum + 1) + k := by omega
    rw [harg]
    exact ih { g with currentnum := g.currentnum + 1 } (by simp; omega) (by simp; omega)

theorem kthSid_err (g : P10SIDGenerator) (k : Nat)
    (h : g.maxnum < g.currentnum + k) (h32 : g.maxnum < 2 ^ 32) :
    g.kthSid k =
      .error (.protocolError "Ran out of valid SIDs! Check your sidrange setting and try again.") := by
  induction k generalizing g with
  | zero =>
    rw [P10SIDGenerator.kthSid, P10SIDGenerator.next_sid, if_pos (by omega)]
    rfl
  | succ k ih =>
    by_cases hc : g.currentnum > g.maxnum
    · simp only [P10SIDGenerator.kthSid, P10SIDGenerator.next_sid, if_pos hc]
    · rw [P10SIDGenerator.kthSid, P10SIDGenerator.next_sid, if_neg hc]
      rw [p10b64encode_ok _ (by omega)]
      show P10SIDGenerator.kthSid _ k = _
      exact ih { g with currentnum := g.currentnum + 1 } (by simp; omega) (by simp; omega)

theorem except_throw_bind {α β : Type} (e : PyErr) (f : α → Except PyErr β) :
    (throw e : Except PyErr α) >>= f = .error e := rfl

theorem except_throw {α : Type} (e : PyErr) : (throw e : Except PyErr α) = .error e := rfl

theorem except_error_bind {α β : Type} (e : PyErr) (f : α → Except PyErr β) :
    (Except.error e : Except PyErr α) >>= f = .error e := rfl

theorem except_ok_bind {α β : Type} (a : α) (f : α → Except PyErr β) :
    (Except.ok a : Except PyErr α) >>= f = f a := rfl

theorem except_pure {α : Type} (a : α) : (pure a : Except PyErr α) = .ok a := rfl

theorem alget_alset_self {α : Type} (m : List (String × α)) (k : String) (v : α) :
    alget (alset m k v) k = some v := by
  induction m with
  | nil => simp [alset, alget]
  | cons p rest ih =>
    by_cases h : p.1 = k <;> simp [alset, alget, h, ih]

theorem alget_aldel_self {α : Type} (m : List (String × α)) (k : String) :
    alget (aldel m k) k = none := by
  induction m with
  | nil => simp [aldel, alget]
  | cons p rest ih =>
    by_cases h : p.1 = k <;> simp [aldel, alget, h, ih]

theorem contains_filter_ne (l : List String) (x : String) :
    (l.filter (· ≠ x)).contains x = false := by
  induction l with
  | nil => rfl
  | cons a rest ih =>
    by_cases h : a = x
    · simp [List.filter, h, ih]
    · have h' : ¬ x = a := fun hh => h hh.symm
      simp [List.filter, h, h', ih, List.contains_cons]

theorem listSplit_no_sep (c : Char) (l acc : List Char) (h : l.contains c = false) :
    listSplit c l acc = [acc.reverse ++ l] := by
  induction l generalizing acc with
  | nil => simp [listSplit]
  | cons x xs ih =>
    simp only [List.contains_cons, Bool.or_eq_false_iff] at h
    have hx : ¬ x = c := by
      intro hEq
      simp [hEq] at h
    rw [listSplit, if_neg hx, ih _ h.2]
    simp

theorem pySplit_single (s : String) (c : Char) (h : s.toList.contains c = false) :
    pySplit s c = [s] := by
  rw [pySplit, listSplit_no_sep c s.toList [] h]
  rfl

/-- Effect of `P10Protocol.handle_part` on a single channel: the wire
buffer is untouched and the parting user is no longer a member of the
channel (whether or not the emptied channel got deleted). -/
theorem p10_handle_part_single (st : NetState) (source channel : String)
    (hlow : toLower channel = channel) (hcomma : channel.toList.contains ',' = false) :
    ((p10_handle_part st source [channel]).1).sent = st.sent ∧
    (getChannel ((p10_handle_part st source [channel]).1) channel).users.contains source = false := by
  rw [p10_handle_part]
  simp only [List.headD, hlow, pySplit_single channel ',' hcomma, List.foldl]
  set st1 := setChannel st channel ((getChannel st channel).removeuser source) with hst1
  set st2 := (match alget st1.users source with
    | some u =>
      let u2 := { u with channels := u.channels.filter (· ≠ channel) }
      { st1 with users := alset st1.users source u2 }
    | none => st1) with hst2
  have hch2 : st2.channels = st1.channels := by
    rw [hst2]
    cases alget st1.users source <;> rfl
  have hsent2 : st2.sent = st1.sent := by
    rw [hst2]
    cases alget st1.users source <;> rfl
  have hget2 : getChannel st2 channel = (getChannel st channel).removeuser source := by
    rw [getChannel, hch2, hst1, setChannel, alget_alset_self]
    rfl
  have hcontains : ((getChannel st channel).removeuser source).users.contains source = false := by
    rw [IrcChannel.removeuser]
    exact contains_filter_ne _ _
  by_cases hempty : (getChannel st2 channel).users.isEmpty = true
  · rw [if_pos hempty]
    constructor
    · simp [hsent2, hst1, setChannel, sendLine]
    · rw [getChannel]
      simp [alget_aldel_self, defaultChan]
  · rw [if_neg hempty]
    constructor
    · simp [hsent2, hst1, setChannel]
    · rw [hget2]
      exact hcontains

/-! ## Claim theorems -/

/-- C2 (code bug evidence): building the template-wildcard SID generator
from the valid template `1#A` succeeds (output starts at `10A`), but the
very first `next_sid` call raises `AttributeError`, because the loop
condition reads `self.servers` and `TS6SIDGenerator` defines no such
attribute (ts6_common.py line 82; only `self.irc` is stored).  No SID is
ever returned, contradicting the generator's own docstring and the
claimed increasing, collision-free enumeration. -/
theorem C2_next_sid_attribute_error :
    ((ts6SidGenInit "1#A").map TS6SIDGenerator.output = .ok ['1', '0', 'A']) ∧
    ((ts6SidGenInit "1#A").bind TS6SIDGenerator.next_sid =
      .error (.attributeError "TS6SIDGenerator object has no attribute servers")) :=
  ⟨rfl, rfl⟩

/-- C3 counterexample: for the IPv6 address `::1` (which has one zero
run), `spawnClient` does not emit an encoding of the address at all —
it sends the constant `AAAAAA` (source comment `TODO: propagate IPv6
address`), which decodes as the IPv4 address `0.0.0.0`, so the claimed
IPv6 round trip fails. -/
theorem C3_ipv6_counterexample :
    spawnClient_b64ip "::1" = "AAAAAA" ∧
    decode_p10_ip "AAAAAA" = .ok (some "0.0.0.0") ∧
    ("0.0.0.0" : String) ≠ "::1" :=
  ⟨rfl, rfl, by decide⟩

/-- C3 (amended): for every valid IPv4 address, decoding the
6-character encoding `spawnClient` produces returns the original
address (`dottedQuad` is `inet_ntoa`'s canonical rendering, which is
the original string for every canonical IPv4 literal); the IPv6 half of
the original claim fails because `spawnClient` sends `AAAAAA` instead
of an encoding. -/
theorem C3_ipv4_roundtrip (s : String) (a b c d : Nat)
    (hp : parseIPv4 s = some [a, b, c, d])
    (ha : a < 256) (hb : b < 256) (hc : c < 256) (hd : d < 256) :
    decode_p10_ip (spawnClient_b64ip s) = .ok (some (dottedQuad a b c d)) := by
  rw [spawnClient_b64ip, hp]
  exact decode_encodeIPv4 a b c d ha hb hc hd

/-- C3 witness: the round trip at `127.0.0.1`. -/
theorem C3_ipv4_roundtrip_witness :
    decode_p10_ip (spawnClient_b64ip "127.0.0.1") = .ok (some (dottedQuad 127 0 0 1)) :=
  C3_ipv4_roundtrip "127.0.0.1" 127 0 0 1 rfl (by decide) (by decide) (by decide) (by decide)

set_option maxRecDepth 4000 in
/-- C1 (code bug evidence): bulk-joining 55 voiced users and one opped
user into `#test` wraps the namelist over two lines; every line stays
within 510 bytes and the concatenated user lists preserve the sorted
order, but the continuation line's first entry comes out as
`ABAAA053:o` although that user held prefix `v` (and no user pair
`("o","ABAAA053")` was passed in): the post-wrap fixup at p10.py line
605 appends `':%s' % prefixes` — the loop variable holding the LAST
sorted user's prefixes — where its own comment and the `first_prefix`
value it computes (lines 594-604) call for the first wrapped entry's
own prefixes. -/
theorem C1_sjoin_wrong_wrap_annotation :
    ((p10_sjoin c1state "AB" "#test" c1users none []).map
        (fun st => st.sent.map firstEntryOfLine) = .ok ["ABAAA000:v", "ABAAA053:o"]) ∧
    ((p10_sjoin c1state "AB" "#test" c1users none []).map
        (fun st => st.sent.all (fun l => l.length ≤ 510)) = .ok true) ∧
    (c1users.contains ("v", "ABAAA053") = true) ∧
    (c1users.contains ("o", "ABAAA053") = false) := by
  refine ⟨by rfl, by rfl, by rfl, by rfl⟩

/-- C10: a kick by an internal user holding neither op nor halfop in
the target channel goes out through the sender's server as source,
with the reason prefixed by the original sender's name in parentheses,
and the kick target is removed from the channel's member list exactly
as a part would remove it. -/
theorem C10_kick_unprivileged (st : NetState) (sender channel target reason : String)
    (uo : IrcUser)
    (hu : alget st.users sender = some uo)
    (hint : isInternalServer st uo.server = true)
    (hnotsv : alget st.servers sender = none)
    (hop : (getChannel st channel).isOp sender = false)
    (hhop : (getChannel st channel).isHalfop sender = false)
    (hr : reason ≠ "")
    (hlow : toLower channel = channel)
    (hcomma : channel.toList.contains ',' = false) :
    (p10_kick st sender channel target reason).map NetState.sent =
      .ok (st.sent ++
        [uo.server ++ " " ++
          ("K " ++ channel ++ " " ++ target ++ " :" ++ ("(" ++ uo.nick ++ ") " ++ reason))]) ∧
    (p10_kick st sender channel target reason).map
        (fun st' => (getChannel st' channel).users.contains target) = .ok false := by
  have hic : isInternalClient st sender = true := by
    simp [isInternalClient, hu, hint]
  have hpart := p10_handle_part_single (p10SendPfx st uo.server
      ("K " ++ channel ++ " " ++ target ++ " :" ++ ("(" ++ uo.nick ++ ") " ++ reason)))
      target channel hlow hcomma
  rw [p10_kick]
  simp only [hic, hlow, hnotsv, hop, hhop, Option.isNone_none, Bool.not_false, Bool.not_true,
    Bool.and_self, Bool.true_and, Bool.and_true, if_neg hr, ite_false, ite_true,
    Bool.false_and, not_true_eq_false, false_and, if_false]
  simp only [getFriendlyName, getServerOf, hu, except_ok_bind, pure_bind, Except.map, except_pure]
  refine ⟨?_, ?_⟩
  · rw [hpart.1]
    rfl
  · rw [hpart.2]

/-- C10 witness: in `c10state` the internal, unprivileged `ABAAA0001`
kicks the opped `42AAAAAAA` from `#test`. -/
theorem C10_kick_unprivileged_witness :
    (p10_kick c10state "ABAAA0001" "#test" "42AAAAAAA" "bye").map NetState.sent =
      .ok (c10state.sent ++
        ["AB" ++ " " ++
          ("K " ++ "#test" ++ " " ++ "42AAAAAAA" ++ " :" ++ ("(" ++ "ABAAA0001" ++ ") " ++ "bye"))]) ∧
    (p10_kick c10state "ABAAA0001" "#test" "42AAAAAAA" "bye").map
        (fun st' => (getChannel st' "#test").users.contains "42AAAAAAA") = .ok false := by
  exact C10_kick_unprivileged c10state "ABAAA0001" "#test" "42AAAAAAA" "bye"
    (mkTestUser "ABAAA0001" "AB" ["#test"]) rfl rfl rfl (by decide) (by decide) (by decide)
    (by decide) (by decide)

/-- C4 counterexample: `42AAAAAAA` is a live user owned by the
non-internal server `42`, so it is not a legal actor; yet the numeric
dialect's raw-numeric operation (p10.py lines 448-452 — no check at
all) and the text dialect's `away` (ts6_common.py lines 286-293 — the
AWAY line is sent before `self.users[source]` is touched) both succeed
and put a wire line on the connection instead of raising.  The empty
string is likewise not a legal actor, yet `spawnClient` coalesces it to
the local server ID (`server = server or self.sid`, p10.py line 264),
passes the internal-server check, spawns the client and sends the N
introduction line. -/
theorem C4_counterexample :
    isInternalClient c4state "42AAAAAAA" = false ∧
    isInternalServer c4state "42AAAAAAA" = false ∧
    (p10_numeric c4state "42AAAAAAA" "311" "ABAAA0001" "whois data").map NetState.sent =
      .ok ["42AAAAAAA 311 ABAAA0001 whois data"] ∧
    (ts6_away c4state "42AAAAAAA" "brb").map NetState.sent =
      .ok [":42AAAAAAA AWAY :brb"] ∧
    isInternalClient c4state "" = false ∧
    isInternalServer c4state "" = false ∧
    (p10_spawnClient c4state "n" "id" "host" none [] (some "") "1.2.3.4" none none).map
      (fun p => p.1.sent.length) = .ok 1 :=
  ⟨rfl, rfl, rfl, rfl, rfl, rfl, rfl⟩

/-- C4 (amended): every listed outbound operation except the raw
numeric reply (both dialects) and the text dialect's `away` checks that
the actor is a live internally-owned client (or server, where servers
may act) before anything is sent, and raises the typed
LookupError/ValueError with no wire bytes emitted when the check fails;
`numeric` sends unconditionally and the text dialect's `away` sends
before touching the user table.  For `spawnClient` the rejection holds
for non-empty invalid actors only: `server = server or self.sid`
coalesces a falsy (`None` or empty-string) server argument to the local
server ID before the check, so an empty actor silently spawns on the
local server and sends. -/
theorem C4_invalid_actor_rejected (st : NetState) (actor : String)
    (h1 : isInternalClient st actor = false) (h2 : isInternalServer st actor = false) :
    (∀ nick ident host rh modes ip rn ts, actor ≠ "" →
      p10_spawnClient st nick ident host rh modes (some actor) ip rn ts =
        .error (.valueError "Server is not a PyLink server!")) ∧
    (∀ text, p10_away st actor text = .error (.lookupError "No such PyLink client exists.")) ∧
    (∀ target text, p10_message st actor target text =
      .error (.lookupError "No such PyLink client exists.")) ∧
    (∀ target text, p10_notice st actor target text =
      .error (.lookupError "No such PyLink client/server exists.")) ∧
    (∀ target modes ts, p10_mode st actor target modes ts =
      .error (.lookupError "No such PyLink client/server exists.")) ∧
    (∀ newnick, p10_nick st actor newnick =
      .error (.lookupError "No such PyLink client exists.")) ∧
    (∀ channel target reason, p10_kick st actor channel target reason =
      .error (.lookupError "No such PyLink client/server exists.")) ∧
    (∀ target reason, p10_kill st actor target reason =
      .error (.lookupError "No such PyLink client/server exists.")) ∧
    (∀ channel reason, p10_part st actor channel reason =
      .error (.lookupError "No such PyLink client exists.")) ∧
    (∀ reason, p10_quit st actor reason =
      .error (.lookupError "No such PyLink client exists.")) ∧
    (∀ target text, p10_topic st actor target text =
      .error (.lookupError "No such PyLink client exists.")) ∧
    (∀ channel target reason, ts6_kick st actor channel target reason =
      .error (.lookupError "No such PyLink client/server exists.")) ∧
    (∀ target reason, ts6_kill st actor target reason =
      .error (.lookupError "No such PyLink client/server exists.")) ∧
    (∀ newnick, ts6_nick st actor newnick =
      .error (.lookupError "No such PyLink client exists.")) ∧
    (∀ channel reason, ts6_part st actor channel reason =
      .error (.lookupError "No such PyLink client exists.")) ∧
    (∀ reason, ts6_quit st actor reason =
      .error (.lookupError "No such PyLink client exists.")) ∧
    (∀ target text, ts6_message st actor target text =
      .error (.lookupError "No such PyLink client exists.")) ∧
    (∀ target text, ts6_notice st actor target text =
      .error (.lookupError "No such PyLink client/server exists.")) ∧
    (∀ target text, ts6_topic st actor target text =
      .error (.lookupError "No such PyLink client exists.")) := by
  refine ⟨?_, ?_, ?_, ?_, ?_, ?_, ?_, ?_, ?_, ?_, ?_, ?_, ?_, ?_, ?_, ?_, ?_, ?_, ?_⟩
  · intro nick ident host rh modes ip rn ts hne
    simp [p10_spawnClient, orDefaultStr, hne, h2, except_throw_bind, except_throw,
      except_error_bind]
  all_goals intros
  all_goals
    simp [p10_away, p10_message, p10_notice, p10_mode, p10_nick, p10_kick,
      p10_kill, p10_part, p10_quit, p10_topic, ts6_kick, ts6_kill, ts6_nick, ts6_part,
      ts6_quit, ts6_message, ts6_notice, ts6_topic, h1, h2, except_throw_bind, except_throw,
      except_error_bind]

/-- C4 witness: the amended statement applied in a concrete network to
the completely unknown (and non-empty) actor `XYZ`, exercised on both
the spawnClient conjunct and the away conjunct. -/
theorem C4_invalid_actor_rejected_witness :
    p10_spawnClient c4state "n" "id" "host" none [] (some "XYZ") "1.2.3.4" none none =
      .error (.valueError "Server is not a PyLink server!") ∧
    p10_away c4state "XYZ" "gone" = .error (.lookupError "No such PyLink client exists.") :=
  ⟨(C4_invalid_actor_rejected c4state "XYZ" rfl rfl).1
      "n" "id" "host" none [] "1.2.3.4" none none (by decide),
    (C4_invalid_actor_rejected c4state "XYZ" rfl rfl).2.1 "gone"⟩

/-- C7 (code bug evidence): in the numeric dialect, `#perm` carries the
permanent mode (`z` on nefarious, and `cmodes['permanent'] = 'z'`), yet
when its last member parts, `P10Protocol.handle_part` deletes the
channel — the code under the comment "Clear empty non-permanent
channels." (p10.py lines 1167-1169) never consults the permanent mode,
while `TS6BaseProtocol.handle_part` (ts6_common.py line 371) checks it
and keeps the channel. -/
theorem C7_p10_deletes_permanent_channel :
    (alget c7state.cmodes "permanent" = some "z") ∧
    ((getChannel c7state "#perm").modes.contains ("z", none) = true) ∧
    (alget ((p10_handle_part c7state "ABAAA0001" ["#perm"]).1).channels "#perm" = none) ∧
    ((alget ((ts6_handle_part c7state "ABAAA0001" ["#perm"]).1).channels "#perm").isSome = true) :=
  ⟨rfl, rfl, by decide, by decide⟩

/-- C5 counterexample: with `sidrange` `0-4096` (so `minnum ≤ maxnum`
holds as the claim requires), the first and the 4097th `next_sid` calls
both succeed and both return `AA` — the two-character SIDs are not
pairwise distinct, because `p10b64encode` only keeps the low twelve
bits of the numeric. -/
theorem C5_counterexample :
    (P10SIDGenerator.init 0 4096).kthSid 0 = .ok "AA" ∧
    (P10SIDGenerator.init 0 4096).kthSid 4096 = .ok "AA" := by
  constructor
  · rw [kthSid_ok _ 0 (by simp only [P10SIDGenerator.init]; omega) (by simp only [P10SIDGenerator.init]; omega)]
    rfl
  · rw [kthSid_ok _ 4096 (by simp only [P10SIDGenerator.init]; omega) (by simp only [P10SIDGenerator.init]; omega)]
    rfl

/-- C5 (amended): when the configured range spans at most 4096 values
(and fits `struct.pack`'s 32-bit bound), the first
`maxnum - minnum + 1` calls all succeed with pairwise-distinct
two-character SIDs, and every later call raises the fatal
`ProtocolError`. -/
theorem C5_sid_generator (minnum maxnum : Nat)
    (h1 : minnum ≤ maxnum) (h2 : maxnum - minnum < 4096) (h3 : maxnum < 2 ^ 32) :
    (∀ k, k ≤ maxnum - minnum →
      (P10SIDGenerator.init minnum maxnum).kthSid k =
        .ok (String.mk (p10sidChars (minnum + k)))) ∧
    (∀ j k, j < k → k ≤ maxnum - minnum →
      (P10SIDGenerator.init minnum maxnum).kthSid j ≠
        (P10SIDGenerator.init minnum maxnum).kthSid k) ∧
    (∀ k, maxnum - minnum < k →
      (P10SIDGenerator.init minnum maxnum).kthSid k =
        .error (.protocolError "Ran out of valid SIDs! Check your sidrange setting and try again.")) := by
  refine ⟨?_, ?_, ?_⟩
  · intro k hk
    exact kthSid_ok _ k (by simp only [P10SIDGenerator.init]; omega) (by simp only [P10SIDGenerator.init]; omega)
  · intro j k hjk hk
    rw [kthSid_ok _ j (by simp only [P10SIDGenerator.init]; omega) (by simp only [P10SIDGenerator.init]; omega),
        kthSid_ok _ k (by simp only [P10SIDGenerator.init]; omega) (by simp only [P10SIDGenerator.init]; omega)]
    simp only [P10SIDGenerator.init, ne_eq, Except.ok.injEq]
    intro hEq
    have hchars : p10sidChars (minnum + j) = p10sidChars (minnum + k) := by
      injection hEq
    have := p10sidChars_eq_mod _ _ hchars
    omega
  · intro k hk
    exact kthSid_err _ k (by simp only [P10SIDGenerator.init]; omega) (by simp only [P10SIDGenerator.init]; omega)

/-- C5 witness: the range `1-3` yields three SIDs and then fails. -/
theorem C5_sid_generator_witness :
    (P10SIDGenerator.init 1 3).kthSid 0 = .ok (String.mk (p10sidChars 1)) ∧
    (P10SIDGenerator.init 1 3).kthSid 0 ≠ (P10SIDGenerator.init 1 3).kthSid 2 ∧
    (P10SIDGenerator.init 1 3).kthSid 3 =
      .error (.protocolError "Ran out of valid SIDs! Check your sidrange setting and try again.") :=
  ⟨by simpa using (C5_sid_generator 1 3 (by decide) (by decide) (by decide)).1 0 (by decide),
   (C5_sid_generator 1 3 (by decide) (by decide) (by decide)).2.1 0 2 (by decide) (by decide),
   (C5_sid_generator 1 3 (by decide) (by decide) (by decide)).2.2 3 (by decide)⟩

/-- C6 counterexample: the 25-character input of `A`s (not a valid P10
IP encoding: IPv6 encodings are at most 24 characters unless they
contain `_`) makes `decode_p10_ip` fall off the end of the function and
silently return `None` — no parse error is raised. -/
theorem C6_counterexample :
    decode_p10_ip "AAAAAAAAAAAAAAAAAAAAAAAAA" = .ok none := rfl

/-- C6 (amended): `decode_p10_ip` is not total-with-parse-error over
malformed input: every input longer than 24 characters that contains no
`_` matches neither the IPv4 nor the IPv6 branch and silently returns
`None` instead of failing. -/
theorem C6_silent_none (s : String) (h1 : 24 < s.length)
    (h2 : s.toList.contains '_' = false) :
    decode_p10_ip s = .ok none := by
  rw [decode_p10_ip, if_neg (by simp only [beq_iff_eq]; omega),
      if_neg (by simp only [Bool.or_eq_true, decide_eq_true_eq, h2, Bool.false_eq_true,
        or_false]; omega)]
  rfl

/-- C6 witness: the amended statement at the 25-character input. -/
theorem C6_silent_none_witness :
    decode_p10_ip "AAAAAAAAAAAAAAAAAAAAAAAAA" = .ok none :=
  C6_silent_none "AAAAAAAAAAAAAAAAAAAAAAAAA" (by decide) (by decide)

theorem listSplit_ne_nil (c : Char) (l acc : List Char) : listSplit c l acc ≠ [] := by
  induction l generalizing acc with
  | nil => simp [listSplit]
  | cons x xs ih =>
    rw [listSplit]
    by_cases h : x = c
    · simp [h, ih]
    · simp [h, ih]

theorem alget_isSome_alset {α : Type} (m : List (String × α)) (k u : String) (v : α)
    (hk : (alget m k).isSome = true) :
    (alget (alset m k v) u).isSome = (alget m u).isSome := by
  induction m with
  | nil => simp [alget] at hk
  | cons p rest ih =>
    by_cases h : p.1 = k
    · by_cases h2 : k = u
      · simp [alset, alget, h, h2]
      · have h3 : ¬ p.1 = u := by rw [h]; exact h2
        simp [alset, alget, h, h2, h3]
    · by_cases h2 : p.1 = u
      · simp only [alset, if_neg h, alget, if_pos h2]
      · simp only [alset, if_neg h, alget, if_neg h2]
        exact ih (by simpa [alget, if_neg h] using hk)

theorem contains_append_one (l : List String) (x u : String) :
    ((l ++ [x]).contains u = true) ↔ (l.contains u = true ∨ u = x) := by
  induction l with
  | nil => simp [List.contains_cons]
  | cons a rest ih => simp [List.contains_cons, ih, or_assoc]

theorem contains_ite_add (c : List String) (k u : String) :
    (((if c.contains k then c else c ++ [k]).contains u) = true) ↔
      (c.contains u = true ∨ u = k) := by
  by_cases h : c.contains k = true
  · simp only [h, if_true]
    constructor
    · intro hu
      exact Or.inl hu
    · rintro (hu | rfl)
      · exact hu
      · exact h
  · have h' : c.contains k = false := by simpa using h
    simp only [h', Bool.false_eq_true, if_false]
    exact contains_append_one c k u

theorem getChannel_setChannel (st : NetState) (channel : String) (ch : IrcChannel) :
    getChannel (setChannel st channel ch) channel = ch := by
  rw [getChannel, setChannel]
  simp [alget_alset_self]

theorem burstAddUser_facts (st : NetState) (channel user : String) (uo : IrcUser)
    (halget : alget st.users user = some uo) :
    (∀ u, (alget (burstAddUser st channel user uo).users u).isSome = (alget st.users u).isSome) ∧
    (burstAddUser st channel user uo).now = st.now ∧
    (getChannel (burstAddUser st channel user uo) channel).ts = (getChannel st channel).ts ∧
    (∀ u, ((getChannel (burstAddUser st channel user uo) channel).users.contains u = true ↔
      ((getChannel st channel).users.contains u = true ∨ u = user))) := by
  have hk : (alget st.users user).isSome = true := by simp [halget]
  refine ⟨?_, rfl, ?_, ?_⟩
  · intro u
    show (alget (alset st.users user _) u).isSome = _
    exact alget_isSome_alset st.users user u _ hk
  · rw [burstAddUser]
    simp only [getChannel_setChannel]
    rfl
  · intro u
    rw [burstAddUser]
    simp only [getChannel_setChannel]
    exact contains_ite_add (getChannel st channel).users user u

theorem burstFold (channel : String) (pairs : List String) :
    ∀ (st : NetState) (nl : List String) (cm : List (String × Option String)) (pfx : String),
    (∀ pair ∈ pairs, (listSplit ':' pair.toList []).length ≤ 2) →
    ∃ st' nl' cm' pfx',
      pairs.foldlM (burstUserStep channel) (st, nl, cm, pfx) = .ok (st', nl', cm', pfx') ∧
      (∀ u, (alget st'.users u).isSome = (alget st.users u).isSome) ∧
      st'.now = st.now ∧
      (getChannel st' channel).ts = (getChannel st channel).ts ∧
      (∀ u, (alget st.users u).isSome = false →
        ((getChannel st' channel).users.contains u = true ↔
          (getChannel st channel).users.contains u = true)) ∧
      (∀ u, (getChannel st channel).users.contains u = true →
        (getChannel st' channel).users.contains u = true) ∧
      (∀ u, (alget st.users u).isSome = true →
        (∃ pair ∈ pairs, burstPairUid pair = u) →
        (getChannel st' channel).users.contains u = true) := by
  induction pairs with
  | nil =>
    intro st nl cm pfx _
    exact ⟨st, nl, cm, pfx, rfl, fun _ => rfl, rfl, rfl,
      fun _ _ => Iff.rfl, fun _ h => h, fun u _ hex => by simp at hex⟩
  | cons p rest ih =>
    intro st nl cm pfx hwf
    have hwfp := hwf p (by simp)
    have hwfrest : ∀ pair ∈ rest, (listSplit ':' pair.toList []).length ≤ 2 :=
      fun pair hp => hwf pair (by simp [hp])
    rw [List.foldlM]
    rcases hsplit : listSplit ':' p.toList [] with _ | ⟨ul, tl⟩
    · exact absurd hsplit (listSplit_ne_nil ':' p.toList [])
    rcases tl with _ | ⟨ql, tl2⟩
    · have huid : burstPairUid p = String.mk ul := by
        rw [burstPairUid, hsplit]
        rfl
      cases halget : alget st.users (String.mk ul) with
      | none =>
        have hstep : burstUserStep channel (st, nl, cm, pfx) p = .ok (st, nl, cm, pfx) := by
          rw [burstUserStep]
          simp only [hsplit, except_pure, except_ok_bind, halget]
        rw [hstep, except_ok_bind]
        obtain ⟨st2, nl2, cm2, pfx2, hfold, hB, hC, hD, hE, hF, hG⟩ :=
          ih st nl cm pfx hwfrest
        refine ⟨st2, nl2, cm2, pfx2, hfold, hB, hC, hD, hE, hF, ?_⟩
        intro u hu hex
        obtain ⟨pair, hpair, hpu⟩ := hex
        rcases List.mem_cons.mp hpair with rfl | hpair2
        · rw [huid] at hpu
          subst hpu
          rw [halget] at hu
          simp at hu
        · exact hG u hu ⟨pair, hpair2, hpu⟩
      | some uo =>
        have hstep : burstUserStep channel (st, nl, cm, pfx) p =
            .ok (burstAddUser st channel (String.mk ul) uo, nl ++ [String.mk ul],
              cm ++ pfx.toList.map (fun c => (String.mk ['+', c], some (String.mk ul))), pfx) := by
          rw [burstUserStep]
          simp only [hsplit, except_pure, except_ok_bind, halget]
        rw [hstep, except_ok_bind]
        obtain ⟨hB0, hC0, hD0, hM0⟩ := burstAddUser_facts st channel (String.mk ul) uo halget
        obtain ⟨st2, nl2, cm2, pfx2, hfold, hB, hC, hD, hE, hF, hG⟩ :=
          ih (burstAddUser st channel (String.mk ul) uo) (nl ++ [String.mk ul])
            (cm ++ pfx.toList.map (fun c => (String.mk ['+', c], some (String.mk ul)))) pfx hwfrest
        refine ⟨st2, nl2, cm2, pfx2, hfold, ?_, ?_, ?_, ?_, ?_, ?_⟩
        · intro u
          rw [hB u, hB0 u]
        · rw [hC, hC0]
        · rw [hD, hD0]
        · intro u hu
          have hune : u ≠ String.mk ul := by
            intro hEq
            rw [hEq, halget] at hu
            simp at hu
          have hu3 : (alget (burstAddUser st channel (String.mk ul) uo).users u).isSome = false := by
            rw [hB0 u]
            exact hu
          rw [hE u hu3, hM0 u]
          constructor
          · rintro (h | rfl)
            · exact h
            · exact absurd rfl hune
          · exact fun h => Or.inl h
        · intro u hu
          exact hF u ((hM0 u).mpr (Or.inl hu))
        · intro u hu hex
          obtain ⟨pair, hpair, hpu⟩ := hex
          rcases List.mem_cons.mp hpair with rfl | hpair2
          · rw [huid] at hpu
            subst hpu
            exact hF _ ((hM0 _).mpr (Or.inr rfl))
          · have hu3 : (alget (burstAddUser st channel (String.mk ul) uo).users u).isSome = true := by
              rw [hB0 u]
              exact hu
            exact hG u hu3 ⟨pair, hpair2, hpu⟩
    rcases tl2 with _ | ⟨rl, tl3⟩
    · have huid : burstPairUid p = String.mk ul := by
        rw [burstPairUid, hsplit]
        rfl
      cases halget : alget st.users (String.mk ul) with
      | none =>
        have hstep : burstUserStep channel (st, nl, cm, pfx) p = .ok (st, nl, cm, (String.mk ql)) := by
          rw [burstUserStep]
          simp only [hsplit, except_pure, except_ok_bind, halget]
        rw [hstep, except_ok_bind]
        obtain ⟨st2, nl2, cm2, pfx2, hfold, hB, hC, hD, hE, hF, hG⟩ :=
          ih st nl cm (String.mk ql) hwfrest
        refine ⟨st2, nl2, cm2, pfx2, hfold, hB, hC, hD, hE, hF, ?_⟩
        intro u hu hex
        obtain ⟨pair, hpair, hpu⟩ := hex
        rcases List.mem_cons.mp hpair with rfl | hpair2
        · rw [huid] at hpu
          subst hpu
          rw [halget] at hu
          simp at hu
        · exact hG u hu ⟨pair, hpair2, hpu⟩
      | some uo =>
        have hstep : burstUserStep channel (st, nl, cm, pfx) p =
            .ok (burstAddUser st channel (String.mk ul) uo, nl ++ [String.mk ul],
              cm ++ (String.mk ql).toList.map (fun c => (String.mk ['+', c], some (String.mk ul))), (String.mk ql)) := by
          rw [burstUserStep]
          simp only [hsplit, except_pure, except_ok_bind, halget]
        rw [hstep, except_ok_bind]
        obtain ⟨hB0, hC0, hD0, hM0⟩ := burstAddUser_facts st channel (String.mk ul) uo halget
        obtain ⟨st2, nl2, cm2, pfx2, hfold, hB, hC, hD, hE, hF, hG⟩ :=
          ih (burstAddUser st channel (String.mk ul) uo) (nl ++ [String.mk ul])
            (cm ++ (String.mk ql).toList.map (fun c => (String.mk ['+', c], some (String.mk ul)))) (String.mk ql) hwfrest
        refine ⟨st2, nl2, cm2, pfx2, hfold, ?_, ?_, ?_, ?_, ?_, ?_⟩
        · intro u
          rw [hB u, hB0 u]
        · rw [hC, hC0]
        · rw [hD, hD0]
        · intro u hu
          have hune : u ≠ String.mk ul := by
            intro hEq
            rw [hEq, halget] at hu
            simp at hu
          have hu3 : (alget (burstAddUser st channel (String.mk ul) uo).users u).isSome = false := by
            rw [hB0 u]
            exact hu
          rw [hE u hu3, hM0 u]
          constructor
          · rintro (h | rfl)
            · exact h
            · exact absurd rfl hune
          · exact fun h => Or.inl h
        · intro u hu
          exact hF u ((hM0 u).mpr (Or.inl hu))
        · intro u hu hex
          obtain ⟨pair, hpair, hpu⟩ := hex
          rcases List.mem_cons.mp hpair with rfl | hpair2
          · rw [huid] at hpu
            subst hpu
            exact hF _ ((hM0 _).mpr (Or.inr rfl))
          · have hu3 : (alget (burstAddUser st channel (String.mk ul) uo).users u).isSome = true := by
              rw [hB0 u]
              exact hu
            exact hG u hu3 ⟨pair, hpair2, hpu⟩
    · rw [hsplit] at hwfp
      simp at hwfp

theorem applyOneChanMode_users (st : NetState) (ch : IrcChannel) (m : String × Option String) :
    (applyOneChanMode st ch m).users = ch.users := by
  simp only [applyOneChanMode]
  repeat' split
  all_goals rfl

theorem applyOneChanMode_ts (st : NetState) (ch : IrcChannel) (m : String × Option String) :
    (applyOneChanMode st ch m).ts = ch.ts := by
  simp only [applyOneChanMode]
  repeat' split
  all_goals rfl

theorem applyModesChan_users (st : NetState) (ch : IrcChannel)
    (cm : List (String × Option String)) :
    (applyModesChan st ch cm).users = ch.users := by
  induction cm generalizing ch with
  | nil => rfl
  | cons m rest ih =>
    rw [applyModesChan, List.foldl]
    rw [show List.foldl (applyOneChanMode st) (applyOneChanMode st ch m) rest =
      applyModesChan st (applyOneChanMode st ch m) rest from rfl]
    rw [ih, applyOneChanMode_users]

theorem applyModesChan_ts (st : NetState) (ch : IrcChannel)
    (cm : List (String × Option String)) :
    (applyModesChan st ch cm).ts = ch.ts := by
  induction cm generalizing ch with
  | nil => rfl
  | cons m rest ih =>
    rw [applyModesChan, List.foldl]
    rw [show List.foldl (applyOneChanMode st) (applyOneChanMode st ch m) rest =
      applyModesChan st (applyOneChanMode st ch m) rest from rfl]
    rw [ih, applyOneChanMode_ts]

theorem updateTS_facts (st : NetState) (src channel : String) (t : Nat)
    (cm : List (String × Option String)) :
    (getChannel (updateTS st src channel t cm) channel).ts = min t (getChannel st channel).ts ∧
    (getChannel (updateTS st src channel t cm) channel).users = (getChannel st channel).users ∧
    (updateTS st src channel t cm).users = st.users := by
  rw [updateTS]
  by_cases h1 : t < (getChannel st channel).ts
  · rw [if_pos h1]
    refine ⟨?_, ?_, rfl⟩
    · rw [getChannel_setChannel, applyModesChan_ts]
      simp
      omega
    · rw [getChannel_setChannel, applyModesChan_users]
  · rw [if_neg h1]
    by_cases h2 : t = (getChannel st channel).ts
    · rw [if_pos h2]
      refine ⟨?_, ?_, rfl⟩
      · rw [getChannel_setChannel, applyModesChan_ts]
        omega
      · rw [getChannel_setChannel, applyModesChan_users]
    · rw [if_neg h2]
      refine ⟨?_, ?_, rfl⟩
      · rw [getChannel_setChannel]
        omega
      · rw [getChannel_setChannel]

/-! ## C9 claim -/

/-- C9: on a well-formed BURST (at least three arguments, last argument a
user list rather than a ban list, valid timestamp) the handler succeeds and
returns a payload; every UID named in the user list that is present in the
user table ends up in the channel's member list, UIDs absent from the user
table are skipped (they are not added to the user table and the channel's
membership of them is unchanged), and the channel's TS is lowered to the
burst TS when that is older. -/
theorem C9_burst_skips_unknown (st : NetState) (source : String) (args : List String)
    (tsv : Nat)
    (h3 : 3 ≤ args.length)
    (hban : pyStartsWith (args.getLastD "") "%" = false)
    (hul : args.getLastD "" ≠ args.getD 1 "")
    (hts : parseNatStr (args.getD 1 "") = some tsv)
    (hwf : ∀ pair ∈ pySplit (args.getLastD "") ',',
      (listSplit ':' pair.toList []).length ≤ 2) :
    ∃ st' payload,
      p10_handle_burst st source args = .ok (st', some payload) ∧
      (∀ u, (alget st.users u).isSome = false →
        (alget st'.users u).isSome = false ∧
        ((getChannel st' (toLower (args.headD ""))).users.contains u = true ↔
          (getChannel st (toLower (args.headD ""))).users.contains u = true)) ∧
      (∀ u, (alget st.users u).isSome = true →
        (∃ pair ∈ pySplit (args.getLastD "") ',', burstPairUid pair = u) →
        (getChannel st' (toLower (args.headD ""))).users.contains u = true) ∧
      (getChannel st' (toLower (args.headD ""))).ts =
        min tsv (getChannel st (toLower (args.headD ""))).ts := by
  obtain ⟨stF, nlF, cmF, pfxF, hfold, hB, hC, hD, hE, hF, hG⟩ :=
    burstFold (toLower (args.headD "")) (pySplit (args.getLastD "") ',') st []
      ((if ¬ ((args.drop 2).dropLast).isEmpty then parseModes st ((args.drop 2).dropLast)
        else []) ++ [])
      "" hwf
  obtain ⟨hU1, hU2, hU3⟩ := updateTS_facts stF source (toLower (args.headD "")) tsv cmF
  rw [p10_handle_burst]
  rw [if_neg (by omega)]
  simp only [hban, Bool.false_eq_true, if_false]
  rw [if_pos hul]
  simp only [pure_bind, hfold, except_ok_bind, hts, except_pure]
  refine ⟨updateTS stF source (toLower (args.headD "")) tsv cmF, _, rfl, ?_, ?_, ?_⟩
  · intro u hu
    constructor
    · rw [hU3, hB u]
      exact hu
    · rw [show (getChannel (updateTS stF source (toLower (args.headD "")) tsv cmF)
          (toLower (args.headD ""))).users = (getChannel stF (toLower (args.headD ""))).users
          from hU2]
      exact hE u hu
  · intro u hu hex
    rw [show (getChannel (updateTS stF source (toLower (args.headD "")) tsv cmF)
        (toLower (args.headD ""))).users = (getChannel stF (toLower (args.headD ""))).users
        from hU2]
    exact hG u hu hex
  · rw [hU1, hD]

/-- Witness: bursting `#test` into `c9state` with TS 1600 and user list
`ABAAA0001,ABAAA9999,ABAAA0002:o` (the middle UID unknown) satisfies the
hypotheses of the burst theorem, so its conclusion holds at this input. -/
theorem C9_burst_skips_unknown_witness :
    ∃ st' payload,
      p10_handle_burst c9state "42" c9args = .ok (st', some payload) ∧
      (∀ u, (alget c9state.users u).isSome = false →
        (alget st'.users u).isSome = false ∧
        ((getChannel st' (toLower (c9args.headD ""))).users.contains u = true ↔
          (getChannel c9state (toLower (c9args.headD ""))).users.contains u = true)) ∧
      (∀ u, (alget c9state.users u).isSome = true →
        (∃ pair ∈ pySplit (c9args.getLastD "") ',', burstPairUid pair = u) →
        (getChannel st' (toLower (c9args.headD ""))).users.contains u = true) ∧
      (getChannel st' (toLower (c9args.headD ""))).ts =
        min 1600 (getChannel c9state (toLower (c9args.headD ""))).ts :=
  C9_burst_skips_unknown c9state "42" c9args 1600
    (by decide) (by decide) (by decide) (by decide) (by decide)

/-! ## C8 claim -/

theorem mkToList (l : List Char) : (String.mk l).toList = l := rfl

theorem mk_append (l1 l2 : List Char) :
    String.mk l1 ++ String.mk l2 = String.mk (l1 ++ l2) := rfl

theorem getLast_replicate (n : Nat) (a : Char) :
    (List.replicate (n + 1) a).getLast? = some a := by
  rw [List.replicate_succ', List.getLast?_concat]

theorem swd_cons (c : Char) (l : List Char) :
    startsWithDigit (String.mk (c :: l)) = c.isDigit := rfl

theorem swd_take (l : List Char) (n : Nat)
    (h : startsWithDigit (String.mk l) = false) :
    startsWithDigit (String.mk (l.take n)) = false := by
  cases l <;> cases n <;> simp_all [startsWithDigit]

theorem swd_slice (s : String) (t : Int) (h : startsWithDigit s = false) :
    startsWithDigit (pySliceTo s t) = false := by
  rw [pySliceTo]
  split
  · exact swd_take s.toList _ h
  · exact swd_take s.toList _ h

theorem swd_guard (s : String) :
    startsWithDigit (if startsWithDigit s then "_" ++ s else s) = false := by
  cases h : startsWithDigit s
  · rw [if_neg (by simp)]
    exact h
  · rw [if_pos rfl]
    show startsWithDigit (String.mk ('_' :: s.toList)) = false
    rw [swd_cons]
    decide

theorem swd_mk_append (l1 l2 : List Char)
    (h1 : startsWithDigit (String.mk l1) = false)
    (h2 : startsWithDigit (String.mk l2) = false) :
    startsWithDigit (String.mk (l1 ++ l2)) = false := by
  cases l1
  · simpa using h2
  · simpa [startsWithDigit] using h1

theorem swd_append (a b : String) (ha : startsWithDigit a = false)
    (hb : startsWithDigit b = false) : startsWithDigit (a ++ b) = false :=
  swd_mk_append a.toList b.toList ha hb

theorem pyReplace_replicate (n : Nat) (a x y : Char) :
    pyReplace (String.mk (List.replicate n a)) x y =
      String.mk (List.replicate n (if a = x then y else a)) := by
  rw [pyReplace, mkToList, List.map_replicate]

theorem chRep_mem (irc : RelayNet) (ch : Char) (h : ch = '/' ∨ ch = '|') :
    chRep irc ch = '/' ∨ chRep irc ch = '|' := by
  rw [chRep]
  split
  · right; rfl
  · exact h

theorem chRep_idem (irc : RelayNet) (ch : Char) :
    chRep irc (chRep irc ch) = chRep irc ch := by
  by_cases hc : irc.protoname = "charybdis" ∧ ch = '/'
  · have h1 : chRep irc ch = '|' := by simp only [chRep]; rw [if_pos hc]
    rw [h1]
    simp only [chRep]
    rw [if_neg]
    intro hx
    exact absurd hx.2 (by decide)
  · have h1 : chRep irc ch = ch := by simp only [chRep]; rw [if_neg hc]
    rw [h1, h1]

theorem chRep_isDigit (irc : RelayNet) (ch : Char) (h : ch = '/' ∨ ch = '|') :
    (chRep irc ch).isDigit = false := by
  rcases chRep_mem irc ch h with h' | h' <;> rw [h'] <;> decide

theorem suffix_tag (a b : String) (n : Nat) (c : Char) :
    List.IsSuffix (c :: b.toList)
      ((a ++ (String.mk (List.replicate (n + 1) c) ++ b)).toList) := by
  refine ⟨a.toList ++ List.replicate n c, ?_⟩
  simp [strToList_append, mkToList, List.replicate_succ', List.append_assoc]

theorem swd_tag (s u : String) (t : Int) (n : Nat) (c : Char)
    (hs : startsWithDigit s = false) (hc : c.isDigit = false) :
    startsWithDigit
      (pySliceTo s t ++ (String.mk (List.replicate (n + 1) c) ++ u)) = false :=
  swd_append _ _ (swd_slice s t hs)
    (by show startsWithDigit (String.mk (List.replicate (n + 1) c ++ u.toList)) = false
        rw [List.replicate_succ, List.cons_append, swd_cons]
        exact hc)

theorem normalizeNick_sound (irc : RelayNet) (netname nickArg : String) :
    ∀ fuel k ch res, (ch = '/' ∨ ch = '|') → 1 ≤ k →
      normalizeNick irc netname nickArg (String.mk (List.replicate k ch)) fuel = some res →
      res.length ≤ irc.maxnicklen ∧
      irc.usedNicks.contains res = false ∧
      List.IsSuffix (chRep irc ch :: netname.toList) res.toList ∧
      startsWithDigit res = false := by
  intro fuel
  induction fuel with
  | zero =>
    intro k ch res hch hk h
    simp [normalizeNick] at h
  | succ fuel ih =>
    intro k ch res hch hk h
    obtain ⟨m, rfl⟩ : ∃ m, k = m + 1 := ⟨k - 1, by omega⟩
    have hsep : (if irc.protoname = "charybdis"
        then pyReplace (String.mk (List.replicate (m + 1) ch)) '/' '|'
        else String.mk (List.replicate (m + 1) ch)) =
        String.mk (List.replicate (m + 1) (chRep irc ch)) := by
      by_cases hp : irc.protoname = "charybdis"
      · have hc' : (if ch = '/' then '|' else ch) = chRep irc ch := by
          rw [chRep]
          by_cases hc : ch = '/'
          · rw [if_pos hc, if_pos ⟨hp, hc⟩]
          · rw [if_neg hc, if_neg (fun hx => hc hx.2)]
        rw [if_pos hp, pyReplace_replicate, hc']
      · rw [if_neg hp, chRep]
        rw [show (if irc.protoname = "charybdis" ∧ ch = '/' then '|' else ch) = ch
          from if_neg (fun hx => hp hx.1)]
    have hrec : (String.mk (List.replicate (m + 1) (chRep irc ch)) ++
        String.mk [chRep irc ch]) =
        String.mk (List.replicate (m + 1 + 1) (chRep irc ch)) := by
      rw [mk_append, ← List.replicate_succ']
    simp only [normalizeNick] at h
    rw [hsep] at h
    simp only [mkToList] at h
    simp only [getLast_replicate] at h
    rw [hrec] at h
    generalize hN5 : pySliceTo (String.mk (List.take irc.maxnicklen (if startsWithDigit (if irc.protoname = "charybdis" then pyReplace nickArg '/' '|' else nickArg) = true then "_" ++ (if irc.protoname = "charybdis" then pyReplace nickArg '/' '|' else nickArg) else (if irc.protoname = "charybdis" then pyReplace nickArg '/' '|' else nickArg)).toList))
        ((irc.maxnicklen : Int) - ((String.mk (List.replicate (m + 1) (chRep irc ch)) ++ netname).length : Int)) ++
      (String.mk (List.replicate (m + 1) (chRep irc ch)) ++ netname) = nick5 at h
    have hsufN : List.IsSuffix (chRep irc ch :: netname.toList) nick5.toList := by
      rw [← hN5]
      exact suffix_tag _ netname m (chRep irc ch)
    have hdigN : startsWithDigit nick5 = false := by
      rw [← hN5]
      exact swd_tag _ netname _ m (chRep irc ch)
        (swd_take _ _ (swd_guard _)) (chRep_isDigit irc ch hch)
    split at h
    · simp at h
    · rename_i r heq
      split at h
      · rename_i hl
        injection h with h'
        subst h'
        split at heq
        · split at heq
          · rename_i n2 hrec2
            split at heq
            · simp at heq
            · rename_i hb2
              injection heq with h2
              subst h2
              obtain ⟨ha, hbu, hsuf, hdig⟩ :=
                ih (m + 1 + 1) (chRep irc ch) _ (chRep_mem irc ch hch) (by omega) hrec2
              rw [chRep_idem] at hsuf
              exact ⟨hl, by simpa using hb2, hsuf, hdig⟩
          · simp at heq
        · rename_i hcont
          injection heq with h5
          subst h5
          exact ⟨hl, by simpa using hcont, hsufN, hdigN⟩
      · simp at h

/-- C8: whenever `normalizeNick` returns a nick (default separator `/`,
target network whose maximum nick length accommodates the tag), the
returned nick is at most `maxnicklen` characters long, ends with the
separator (`|` on charybdis, `/` elsewhere) followed by the origin
network's name, does not start with a digit, and does not equal any nick
already in use on the target network.  Proved by induction on the
recursion depth, the separator generalized to any positive repetition of
`/` or `|` to cover the collision-lengthening recursion. -/
theorem C8_normalizeNick (irc : RelayNet) (netname nick res : String) (fuel : Nat)
    (hlen : ("/" ++ netname).length ≤ irc.maxnicklen)
    (h : normalizeNick irc netname nick "/" fuel = some res) :
    res.length ≤ irc.maxnicklen ∧
    irc.usedNicks.contains res = false ∧
    List.IsSuffix (((if irc.protoname = "charybdis" then "|" else "/") ++ netname).toList)
      res.toList ∧
    startsWithDigit res = false := by
  have h' : normalizeNick irc netname nick (String.mk (List.replicate 1 '/')) fuel = some res := h
  obtain ⟨h1, h2, h3, h4⟩ :=
    normalizeNick_sound irc netname nick fuel 1 '/' res (Or.inl rfl) (by omega) h'
  refine ⟨h1, h2, ?_, h4⟩
  have hl : ((if irc.protoname = "charybdis" then "|" else "/") ++ netname).toList
      = chRep irc '/' :: netname.toList := by
    by_cases hp : irc.protoname = "charybdis"
    · rw [if_pos hp,
        show chRep irc '/' = '|' from by simp only [chRep]; rw [if_pos ⟨hp, trivial⟩]]
      rfl
    · rw [if_neg hp,
        show chRep irc '/' = '/' from by simp only [chRep]; rw [if_neg (fun hx => hp hx.1)]]
      rfl
  rw [hl]
  exact h3

/-- Witness: on a 30-character-nick network with no nicks in use,
normalizing `123abc` for origin network `net` yields `_123abc/net`,
which satisfies all four properties. -/
theorem C8_normalizeNick_witness :
    "_123abc/net".length ≤ c8net.maxnicklen ∧
    c8net.usedNicks.contains "_123abc/net" = false ∧
    List.IsSuffix (((if c8net.protoname = "charybdis" then "|" else "/") ++ "net").toList)
      "_123abc/net".toList ∧
    startsWithDigit "_123abc/net" = false :=
  C8_normalizeNick c8net "net" "123abc" "_123abc/net" 5 (by decide) (by decide)

end PyLink
